import Mathlib

/-!
Shallow embedding of the image-edit-api core (NestJS/TypeScript) in Lean 4.

Embedded components, translated from the repository sources:
* `ColorParserService` (src/unnamed/part_008): `parseColor`, `parseHex`,
  `parseRgb`, `validateRGB`, `normalizeColorString`, `isValidColor`.
* `ImageProcessingService`
  (src/src/image/services/image-processing/image-processing.service.ts):
  `removeColorPixels`, `isColorMatch`, `validateCropRegions`, `cropRegions`,
  `extractCropRegion`, `generateBackgroundWithTransparency`.
* `BoundingBoxTransformService` (src/unnamed/part_009): `transform`,
  `findMatchingObject`, `validateBounds`.

Modelling conventions:
* JS `number` values are modelled as `Int` where the program only produces
  integers, and as `Rat` where fractional intermediate values occur
  (coordinate scaling, `parseFloat`).  JS `NaN` is modelled as `Option`
  `none`.
* JS exceptions are modelled as `Except`/`Option` error values; each throw
  site of the source gets its own error constructor (the source messages
  are strings; only their identity matters here).
* The flat RGBA byte buffer (4 bytes per pixel, row-major) is modelled as a
  `List Pixel` of RGBA quadruples; the source loops stride the buffer in
  4-byte steps, which corresponds to mapping over that list.
* PNG decode/encode are external codec calls (sharp); operations take and
  return decoded rasters (`Image`) directly.
-/

deriving instance DecidableEq for Except

/-- RGB colour triple, from `interface RGBColor { r; g; b : number }`. -/
structure RGBColor where
  r : Int
  g : Int
  b : Int
deriving DecidableEq, Repr

/-- One error constructor per throw site of `ColorParserService`. -/
inductive ColorError where
  /-- "Invalid color format" (no grammar matched). -/
  | invalidFormat
  /-- "Invalid hex color format" (hex length not 3 or 6). -/
  | invalidHexFormat
  /-- "Invalid RGB format" (regex `rgba?\(([^)]+)\)` did not match). -/
  | invalidRgbFormat
  /-- "Invalid RGB values: need at least 3" (`values.length < 3`). -/
  | invalidRgbCount
  /-- "Invalid RGB values: must be 0-255" (`validateRGB` rejection,
  covering both the `isNaN` and the range checks of the source). -/
  | invalidRgbValues
deriving DecidableEq, Repr

/-- Value of a hexadecimal digit character, `none` for non-digits,
written as an explicit table. -/
def hexDigitVal (c : Char) : Option Nat :=
  if c = '0' then some 0 else if c = '1' then some 1
  else if c = '2' then some 2 else if c = '3' then some 3
  else if c = '4' then some 4 else if c = '5' then some 5
  else if c = '6' then some 6 else if c = '7' then some 7
  else if c = '8' then some 8 else if c = '9' then some 9
  else if c = 'a' then some 10 else if c = 'b' then some 11
  else if c = 'c' then some 12 else if c = 'd' then some 13
  else if c = 'e' then some 14 else if c = 'f' then some 15
  else if c = 'A' then some 10 else if c = 'B' then some 11
  else if c = 'C' then some 12 else if c = 'D' then some 13
  else if c = 'E' then some 14 else if c = 'F' then some 15
  else none

/-- The 22 characters `hexDigitVal` accepts. -/
def hexChars : List Char :=
  ['A', 'B', 'C', 'D', 'E', 'F', 'a', 'b', 'c', 'd', 'e', 'f', '0', '1', '2', '3', '4', '5', '6', '7', '8', '9']

/-- Accumulate the longest hex-digit run, as JS `parseInt(·, 16)` does. -/
def hexRunVal : List Char → Nat → Nat
  | [], acc => acc
  | c :: rest, acc =>
    match hexDigitVal c with
    | some d => hexRunVal rest (acc * 16 + d)
    | none => acc

/-- JS `parseInt(s, 16)`: optional sign, optional `0x` prefix, then the
longest hex-digit prefix; `none` models `NaN` (no digit found). -/
def parseInt16 (s : String) : Option Int :=
  let l := s.toList
  let sl : Int × List Char :=
    match l with
    | '-' :: rest => (-1, rest)
    | '+' :: rest => (1, rest)
    | _ => (1, l)
  let l2 : List Char :=
    match sl.2 with
    | '0' :: 'x' :: rest => rest
    | '0' :: 'X' :: rest => rest
    | _ => sl.2
  match l2 with
  | c :: rest =>
    match hexDigitVal c with
    | some d => some (sl.1 * hexRunVal rest d)
    | none => none
  | [] => none

/-- Decimal digit value, `none` for non-digits, as an explicit table. -/
def digitVal (c : Char) : Option Nat :=
  if c = '0' then some 0 else if c = '1' then some 1
  else if c = '2' then some 2 else if c = '3' then some 3
  else if c = '4' then some 4 else if c = '5' then some 5
  else if c = '6' then some 6 else if c = '7' then some 7
  else if c = '8' then some 8 else if c = '9' then some 9
  else none

/-- Split a decimal-digit prefix off a character list. -/
def takeDigits : List Char → List Nat × List Char
  | [] => ([], [])
  | c :: rest =>
    match digitVal c with
    | some d =>
      let p := takeDigits rest
      (d :: p.1, p.2)
    | none => ([], c :: rest)

/-- Digit run to natural number, most significant first. -/
def digitsToNat (ds : List Nat) : Nat :=
  ds.foldl (fun a d => a * 10 + d) 0

/-- Exponent part of a JS float literal (`e`/`E`, optional sign, digits);
a malformed exponent contributes nothing, as `parseFloat` stops there. -/
def parseExpPart : List Char → Int
  | 'e' :: rest => parseExpDigits rest
  | 'E' :: rest => parseExpDigits rest
  | _ => 0
where
  parseExpDigits (l : List Char) : Int :=
    let sl : Int × List Char :=
      match l with
      | '-' :: rest => (-1, rest)
      | '+' :: rest => (1, rest)
      | _ => (1, l)
    let p := takeDigits sl.2
    if p.1.isEmpty then 0 else sl.1 * digitsToNat p.1

/-- JS `parseFloat`: optional sign, digits with optional fraction (at least
one digit overall), optional exponent; parses the longest valid prefix and
ignores trailing junk; `none` models `NaN`.  The tokens reaching it here
are already trimmed and lower-cased, so the `Infinity` literal (which is
case-sensitive in JS) can never match and is not modelled. -/
def parseFloatQ (s : String) : Option Rat :=
  let l := s.toList
  let sl : Rat × List Char :=
    match l with
    | '-' :: rest => (-1, rest)
    | '+' :: rest => (1, rest)
    | _ => (1, l)
  let ip := takeDigits sl.2
  let fp : List Nat × List Char :=
    match ip.2 with
    | '.' :: rest => takeDigits rest
    | _ => ([], ip.2)
  if ip.1.isEmpty ∧ fp.1.isEmpty then none
  else
    let mantissa : Rat :=
      (digitsToNat ip.1 : Rat) + (digitsToNat fp.1 : Rat) / ((10 : Rat) ^ fp.1.length)
    let e : Int := parseExpPart fp.2
    some (sl.1 * (if 0 ≤ e then mantissa * (10 : Rat) ^ e.toNat
                  else mantissa / (10 : Rat) ^ (-e).toNat))

/-- JS `Math.round`: round half up (toward +∞), i.e. `⌊q + 1/2⌋`. -/
def roundHalfUp (q : Rat) : Int := ⌊q + 1 / 2⌋

/-- Round half away from zero — the rounding mode the specification names.
Agrees with `roundHalfUp` on nonnegative inputs. -/
def roundHalfAway (q : Rat) : Int :=
  if 0 ≤ q then ⌊q + 1 / 2⌋ else ⌈q - 1 / 2⌉

/-- Source `validateRGB`: reject if any channel `isNaN` (modelled by
`none`) or outside `[0, 255]`; otherwise return the colour. -/
def validateRGB (r g b : Option Int) : Except ColorError RGBColor :=
  match r, g, b with
  | some r, some g, some b =>
    if r < 0 ∨ r > 255 ∨ g < 0 ∨ g > 255 ∨ b < 0 ∨ b > 255 then
      .error .invalidRgbValues
    else .ok ⟨r, g, b⟩
  | _, _, _ => .error .invalidRgbValues

/-- Remove the first occurrence of a character, as JS `replace('#', '')`
with a string pattern replaces only the first match. -/
def removeFirstChar (c : Char) : List Char → List Char
  | [] => []
  | x :: rest => if x = c then rest else x :: removeFirstChar c rest

/-- Source `parseHex`: strip the first `#`, then accept length 3
(each digit doubled) or length 6; any other length fails. -/
def parseHex (hex : List Char) : Except ColorError RGBColor :=
  let cleanHex := removeFirstChar '#' hex
  match cleanHex with
  | [c0, c1, c2] =>
    validateRGB (parseInt16 (String.mk [c0, c0]))
      (parseInt16 (String.mk [c1, c1]))
      (parseInt16 (String.mk [c2, c2]))
  | [c0, c1, c2, c3, c4, c5] =>
    validateRGB (parseInt16 (String.mk [c0, c1]))
      (parseInt16 (String.mk [c2, c3]))
      (parseInt16 (String.mk [c4, c5]))
  | _ => .error .invalidHexFormat

/-- Separator class of the split regex `/[\s,]+/`: comma or whitespace. -/
def isSepChar (c : Char) : Bool := c = ',' ∨ c.isWhitespace

/-- Split the parenthesized content on commas/whitespace and drop empty
pieces — the source's `split(/[\s,]+/).map(trim).filter(length > 0)`
(tokens contain no separator characters, so the `trim` is a no-op). -/
def tokenizeRgbContent (content : List Char) : List String :=
  ((String.mk content).split (fun c => isSepChar c)).filter (fun t => t ≠ "")

/-- The numeric part of `parseRgb`: map `parseFloat` over the tokens, fail
if fewer than 3 values, else `Math.round` the first three and range-check.
A fourth value, when present, is never inspected. -/
def parseRgbTokens (tokens : List String) : Except ColorError RGBColor :=
  match tokens.map parseFloatQ with
  | v0 :: v1 :: v2 :: _ =>
    validateRGB (v0.map roundHalfUp) (v1.map roundHalfUp) (v2.map roundHalfUp)
  | _ => .error .invalidRgbCount

/-- Content grab of the regex tail `\(([^)]+)\)` at a position just past
the opening parenthesis: one or more non-`)` characters followed by `)`. -/
def grabParenContent (l : List Char) : Option (List Char) :=
  let content := l.takeWhile (fun c => c ≠ ')')
  if content.isEmpty then none
  else
    match l.dropWhile (fun c => c ≠ ')') with
    | ')' :: _ => some content
    | _ => none

/-- Try the regex `rgba?\(([^)]+)\)` anchored at the current position
(the greedy `a?` first, then without it). -/
def tryRgbAt : List Char → Option (List Char)
  | 'r' :: 'g' :: 'b' :: 'a' :: '(' :: rest => grabParenContent rest
  | 'r' :: 'g' :: 'b' :: '(' :: rest => grabParenContent rest
  | _ => none

/-- Leftmost match of `rgba?\(([^)]+)\)`: scan positions left to right. -/
def findRgbContent : List Char → Option (List Char)
  | [] => none
  | c :: rest =>
    match tryRgbAt (c :: rest) with
    | some content => some content
    | none => findRgbContent rest

/-- Source `parseRgb`. -/
def parseRgb (s : List Char) : Except ColorError RGBColor :=
  match findRgbContent s with
  | some content => parseRgbTokens (tokenizeRgbContent content)
  | none => .error .invalidRgbFormat

/-- JS `String.prototype.trim` on a character list. -/
def trimChars (l : List Char) : List Char :=
  ((l.dropWhile Char.isWhitespace).reverse.dropWhile Char.isWhitespace).reverse

/-- JS `toLowerCase`, character-wise, on the basic latin letters (the
only case mapping the colour strings and object names of this API can
exercise), written as an explicit table. -/
def lowerChar (c : Char) : Char :=
  if c = 'A' then 'a' else if c = 'B' then 'b' else if c = 'C' then 'c'
  else if c = 'D' then 'd' else if c = 'E' then 'e' else if c = 'F' then 'f'
  else if c = 'G' then 'g' else if c = 'H' then 'h' else if c = 'I' then 'i'
  else if c = 'J' then 'j' else if c = 'K' then 'k' else if c = 'L' then 'l'
  else if c = 'M' then 'm' else if c = 'N' then 'n' else if c = 'O' then 'o'
  else if c = 'P' then 'p' else if c = 'Q' then 'q' else if c = 'R' then 'r'
  else if c = 'S' then 's' else if c = 'T' then 't' else if c = 'U' then 'u'
  else if c = 'V' then 'v' else if c = 'W' then 'w' else if c = 'X' then 'x'
  else if c = 'Y' then 'y' else if c = 'Z' then 'z' else c

/-- Source `normalizeColorString`: trim, then lower-case. -/
def normalizeColorString (s : String) : String :=
  String.mk ((trimChars s.toList).map lowerChar)

/-- The fixed named-colour table of `ColorParserService`. -/
def namedColors : List (String × RGBColor) :=
  [("white", ⟨255, 255, 255⟩),
   ("black", ⟨0, 0, 0⟩),
   ("red", ⟨255, 0, 0⟩),
   ("green", ⟨0, 255, 0⟩),
   ("blue", ⟨0, 0, 255⟩)]

/-- JS `String.prototype.startsWith`, as a structural list prefix test. -/
def strStartsWith (s pre : String) : Bool :=
  pre.toList.isPrefixOf s.toList

/-- What the source `parseColor` can actually hand back: its declared
TypeScript type is `RGBColor`, but the named-colour branch reads
`this.namedColors[normalized]` with a plain JS property access, which
consults the prototype chain; a truthy member inherited from
`Object.prototype` is returned as-is and bypasses every range check.
`inherited` records that non-colour outcome with the property name that
produced it. -/
inductive ParsedColor where
  /-- A genuine colour value. -/
  | colour (c : RGBColor)
  /-- A truthy non-colour value inherited from `Object.prototype`. -/
  | inherited (property : String)
deriving DecidableEq, Repr

/-- Members of `Object.prototype` the lookup can reach: the key is
trimmed and lower-cased and JS property names are case-sensitive, so of
the prototype's members only the all-lowercase `constructor` and
`__proto__` can be hit (both yield truthy objects); `toString`,
`valueOf`, `hasOwnProperty` and the rest contain upper-case letters and
are unreachable. -/
def inheritedProps : List String := ["constructor", "__proto__"]

/-- The JS truthiness test and lookup `this.namedColors[normalized]`: an
own entry of the table, else a truthy `Object.prototype` member, else
`undefined` (falsy). -/
def namedColorsLookup (normalized : String) : Option ParsedColor :=
  match namedColors.find? (fun p => p.1 = normalized) with
  | some p => some (.colour p.2)
  | none =>
    if normalized ∈ inheritedProps then some (.inherited normalized)
    else none

/-- Source `parseColor`: normalize, then the named-colour property
lookup (including its prototype-chain leak), then hex on a leading `#`,
then rgb()/rgba() on a leading `rgb`, else fail. -/
def parseColor (colorString : String) : Except ColorError ParsedColor :=
  let normalized := normalizeColorString colorString
  match namedColorsLookup normalized with
  | some v => .ok v
  | none =>
    if strStartsWith normalized "#" then
      (parseHex normalized.toList).map .colour
    else if strStartsWith normalized "rgb" then
      (parseRgb normalized.toList).map .colour
    else .error .invalidFormat

/-- Modelled from the claim's words: `parseColor` with the named-colour
branch as an exact lookup in the fixed table only (no prototype chain),
for comparison with the source behaviour. -/
def exactLookupParseColor (colorString : String) :
    Except ColorError ParsedColor :=
  let normalized := normalizeColorString colorString
  match namedColors.find? (fun p => p.1 = normalized) with
  | some p => .ok (.colour p.2)
  | none =>
    if strStartsWith normalized "#" then
      (parseHex normalized.toList).map .colour
    else if strStartsWith normalized "rgb" then
      (parseRgb normalized.toList).map .colour
    else .error .invalidFormat

/-- Source `isValidColor`: `parseColor` with failure captured. -/
def isValidColor (colorString : String) : Bool :=
  match parseColor colorString with
  | .ok _ => true
  | .error _ => false

/-!
`ImageProcessingService` embedding
(src/src/image/services/image-processing/image-processing.service.ts).
-/

/-- One RGBA pixel: one 4-byte group of the flat raw buffer. -/
structure Pixel where
  r : Nat
  g : Nat
  b : Nat
  a : Nat
deriving DecidableEq, Repr

/-- A decoded raster: `extractRawPixels` output (`data` plus `info`),
row-major, alpha guaranteed by `ensureAlpha`. -/
structure Image where
  width : Nat
  height : Nat
  pixels : List Pixel
deriving DecidableEq, Repr

/-- View a pixel's colour bytes as an `RGBColor`, as the scan loop's
`{ r, g, b }` destructuring of the buffer does. -/
def pixelColorOf (p : Pixel) : RGBColor := ⟨p.r, p.g, p.b⟩

/-- Squared Euclidean RGB distance.  The source compares
`Math.sqrt(d2) <= tolerance`; for a nonnegative integer tolerance this is
equivalent to `d2 ≤ tolerance²` (square root is monotone), which keeps the
definition executable. -/
def dist2 (p t : RGBColor) : Int :=
  (p.r - t.r) ^ 2 + (p.g - t.g) ^ 2 + (p.b - t.b) ^ 2

/-- Source `isColorMatch`: exact channel equality when
`tolerance === 0`, else Euclidean distance at most `tolerance`. -/
def isColorMatch (pixelColor targetColor : RGBColor) (tolerance : Nat) : Bool :=
  if tolerance = 0 then
    pixelColor.r = targetColor.r ∧ pixelColor.g = targetColor.g ∧
      pixelColor.b = targetColor.b
  else
    dist2 pixelColor targetColor ≤ (tolerance : Int) ^ 2

/-- Source `removeColorPixels`: the `i += 4` loop over the flat
buffer, setting the alpha byte to 0 on each matching pixel. -/
def removeColorPixels (pixelData : List Pixel) (targetColor : RGBColor)
    (tolerance : Nat) : List Pixel :=
  pixelData.map fun p =>
    if isColorMatch (pixelColorOf p) targetColor tolerance then
      { p with a := 0 }
    else p

/-- Source `removeBackground`: decode (external), scan with
`removeColorPixels` using `options.tolerance || 0`, re-encode (external). -/
def removeBackground (im : Image) (backgroundColor : RGBColor)
    (tolerance : Option Nat) : Image :=
  { im with
    pixels := removeColorPixels im.pixels backgroundColor (tolerance.getD 0) }

/-- Position `{ x, y }` of a `CropRegion`. -/
structure Position where
  x : Int
  y : Int
deriving DecidableEq, Repr

/-- Size `{ w, h }` of a `CropRegion`. -/
structure Size where
  w : Int
  h : Int
deriving DecidableEq, Repr

/-- Source `interface CropRegion` (optional label, position, size). -/
structure CropRegion where
  object : Option String
  position : Position
  size : Size
deriving DecidableEq, Repr

/-- The four validation throw sites of `validateCropRegions`, in source
order. -/
inductive CropErrorKind where
  /-- "Position cannot be negative". -/
  | negativePosition
  /-- "Size must be positive". -/
  | nonPositiveSize
  /-- "Crop extends beyond image width". -/
  | beyondWidth
  /-- "Crop extends beyond image height". -/
  | beyondHeight
deriving DecidableEq, Repr

/-- A `cropRegions` validation failure: offending region index plus the
violated check ("Region ${index}: ..." in the source message). -/
structure CropError where
  index : Nat
  kind : CropErrorKind
deriving DecidableEq, Repr

/-- The body of the `validateCropRegions` `forEach`: the four `if` checks
in source order for one region; `none` means the region passed. -/
def checkRegion (region : CropRegion) (imageWidth imageHeight : Int) :
    Option CropErrorKind :=
  if region.position.x < 0 ∨ region.position.y < 0 then
    some .negativePosition
  else if region.size.w ≤ 0 ∨ region.size.h ≤ 0 then
    some .nonPositiveSize
  else if region.position.x + region.size.w > imageWidth then
    some .beyondWidth
  else if region.position.y + region.size.h > imageHeight then
    some .beyondHeight
  else none

/-- Source `validateCropRegions`: scan regions in input order; the
first throw aborts the whole `forEach`, so the result is the first failing
region's index and check. -/
def validateCropRegionsFrom (idx : Nat) (imageWidth imageHeight : Int) :
    List CropRegion → Option CropError
  | [] => none
  | region :: rest =>
    match checkRegion region imageWidth imageHeight with
    | some kind => some ⟨idx, kind⟩
    | none => validateCropRegionsFrom (idx + 1) imageWidth imageHeight rest

/-- Entry point of `validateCropRegions` (indices start at 0). -/
def validateCropRegions (regions : List CropRegion)
    (imageWidth imageHeight : Int) : Option CropError :=
  validateCropRegionsFrom 0 imageWidth imageHeight regions

/-- Buffer read at a pixel index; out-of-range reads yield zero bytes, as
reads past a JS `Buffer` have no pixel content (never hit on validated
inputs). -/
def pixAt (px : List Pixel) (i : Nat) : Pixel := px.getD i ⟨0, 0, 0, 0⟩

/-- Source `extractCropRegion`, whose `sharp(...).extract` call is modelled on
the decoded raster: the window
`[left, left + width) × [top, top + height)` of the source, row-major.
Called only on validated regions, whose coordinates are nonnegative. -/
def extractCropRegion (im : Image) (region : CropRegion) : Image :=
  let left := region.position.x.toNat
  let top := region.position.y.toNat
  let w := region.size.w.toNat
  let h := region.size.h.toNat
  ⟨w, h,
    (List.range h).flatMap fun row =>
      (List.range w).map fun col =>
        pixAt im.pixels ((top + row) * im.width + (left + col))⟩

/-- Map with an explicit running index, for the indexed loops below. -/
def mapIdxFrom (f : Nat → α → β) : Nat → List α → List β
  | _, [] => []
  | k, a :: as => f k a :: mapIdxFrom f (k + 1) as

/-- Whether the masking loops of `generateBackgroundWithTransparency`
touch buffer index `i` for one region: the loop runs
`row` from `y` while `row < y + h && row < height` and `col` from `x`
while `col < x + w && col < width`, writing `(row * width + col) * 4 + 3`;
position `i` decomposes as `row = i / width`, `col = i % width`. -/
def inMaskWindow (width height : Nat) (region : CropRegion) (i : Nat) : Bool :=
  let row : Int := (i / width : Nat)
  let col : Int := (i % width : Nat)
  region.position.y ≤ row ∧ row < region.position.y + region.size.h ∧
    row < (height : Int) ∧
    region.position.x ≤ col ∧ col < region.position.x + region.size.w ∧
    col < (width : Int)

/-- One region's pass of the masking loop: set alpha to 0 at every touched
index. -/
def maskRegionPixels (width height : Nat) (px : List Pixel)
    (region : CropRegion) : List Pixel :=
  mapIdxFrom
    (fun i p => if inMaskWindow width height region i then { p with a := 0 } else p)
    0 px

/-- Source `generateBackgroundWithTransparency`: decode one copy of
the full raster, apply each region's masking pass in input order,
re-encode. -/
def generateBackgroundWithTransparency (im : Image)
    (regions : List CropRegion) : Image :=
  { im with
    pixels := regions.foldl (maskRegionPixels im.width im.height) im.pixels }

/-- One `croppedRegions` entry: `{ index, object, position,
size: { width: w, height: h } }`. -/
structure CroppedRegionMeta where
  index : Nat
  object : Option String
  position : Position
  sizeWidth : Int
  sizeHeight : Int
deriving DecidableEq, Repr

/-- Source `CropResult.metadata`. -/
structure CropMetadata where
  originalWidth : Nat
  originalHeight : Nat
  croppedRegions : List CroppedRegionMeta
deriving DecidableEq, Repr

/-- Source `interface CropResult`, with encoded buffers abstracted to rasters. -/
structure CropResult where
  croppedImages : List Image
  backgroundImage : Option Image
  metadata : CropMetadata
deriving DecidableEq, Repr

/-- Source `cropRegions`: read dimensions, validate all regions (a
failure aborts the call before any extraction), extract every region
(`Promise.all` keeps input order), optionally build the masked background,
and assemble the positionally aligned metadata. -/
def cropRegions (im : Image) (regions : List CropRegion)
    (includeBackground : Bool) : Except CropError CropResult :=
  match validateCropRegions regions im.width im.height with
  | some e => .error e
  | none =>
    let croppedImages := regions.map (extractCropRegion im)
    let backgroundImage :=
      if includeBackground then
        some (generateBackgroundWithTransparency im regions)
      else none
    .ok
      { croppedImages
        backgroundImage
        metadata :=
          { originalWidth := im.width
            originalHeight := im.height
            croppedRegions :=
              mapIdxFrom
                (fun index region =>
                  { index
                    object := region.object
                    position := region.position
                    sizeWidth := region.size.w
                    sizeHeight := region.size.h })
                0 regions } }

/-!
`BoundingBoxTransformService` embedding (src/unnamed/part_009).
-/

/-- Source `ObjectDescriptionDto`: requested object `{ name, description }`. -/
structure ObjectDescription where
  name : String
  description : String
deriving DecidableEq, Repr

/-- Source `GeminiBoundingBox`: detector output; `box_2d` is
`[y_min, x_min, y_max, x_max]`, destructured in that order by the source. -/
structure GeminiBoundingBox where
  label : String
  yMin : Int
  xMin : Int
  yMax : Int
  xMax : Int
deriving DecidableEq, Repr

/-- Source `ImageSizeDto` (width and height). -/
structure ImageSize where
  width : Int
  height : Int
deriving DecidableEq, Repr

/-- Source `BoundingBoxDto` (object, position, size). -/
structure BoundingBoxDto where
  object : String
  position : Position
  size : Size
deriving DecidableEq, Repr

/-- The three throw branches of `validateBounds`, in source order. -/
inductive BoxError where
  /-- "Bounding box position cannot be negative". -/
  | negativePosition
  /-- "Bounding box exceeds image bounds" (width and height overflow are
  one combined check in the source). -/
  | outOfBounds
  /-- "Bounding box size must be positive". -/
  | nonPositiveSize
deriving DecidableEq, Repr

/-- JS `toLowerCase` on a whole string, character-wise. -/
def lowerStr (s : String) : String :=
  String.mk (s.toList.map lowerChar)

/-- Substring occurrence test: does `needle` occur contiguously inside
`hay`? (JS `String.prototype.includes`.) -/
def containsSub (needle : List Char) : List Char → Bool
  | [] => needle.isEmpty
  | c :: rest => needle.isPrefixOf (c :: rest) || containsSub needle rest

/-- JS `hay.includes(needle)`. -/
def strIncludes (hay needle : String) : Bool :=
  containsSub needle.toList hay.toList

/-- Source `findMatchingObject`: first case-insensitive exact name
match, else first case-insensitive containment match (either direction),
else the raw detector label. -/
def findMatchingObject (geminiLabel : String)
    (objectDescriptions : List ObjectDescription) : String :=
  match objectDescriptions.find?
      (fun obj => lowerStr obj.name = lowerStr geminiLabel) with
  | some exactMatch => exactMatch.name
  | none =>
    match objectDescriptions.find?
        (fun obj =>
          strIncludes (lowerStr geminiLabel) (lowerStr obj.name) ||
            strIncludes (lowerStr obj.name) (lowerStr geminiLabel)) with
    | some m => m.name
    | none => geminiLabel

/-- Source `validateBounds`: negative position, then the combined
out-of-bounds check, then non-positive size. -/
def validateBounds (x y w h : Int) (imageSize : ImageSize) :
    Except BoxError Unit :=
  if x < 0 ∨ y < 0 then .error .negativePosition
  else if x + w > imageSize.width ∨ y + h > imageSize.height then
    .error .outOfBounds
  else if w ≤ 0 ∨ h ≤ 0 then .error .nonPositiveSize
  else .ok ()

/-- The per-box body of `transform`'s `map`: resolve the label, scale the
normalized `[0, 1000]` coordinates to pixels with `Math.round`, validate,
and build the DTO.  JS float arithmetic is idealized as exact rational
arithmetic. -/
def transformOne (objectDescriptions : List ObjectDescription)
    (imageSize : ImageSize) (geminiBox : GeminiBoundingBox) :
    Except BoxError BoundingBoxDto :=
  let matchedObject := findMatchingObject geminiBox.label objectDescriptions
  let x := roundHalfUp ((geminiBox.xMin : Rat) / 1000 * (imageSize.width : Rat))
  let y := roundHalfUp ((geminiBox.yMin : Rat) / 1000 * (imageSize.height : Rat))
  let w := roundHalfUp (((geminiBox.xMax - geminiBox.xMin : Int) : Rat) / 1000 *
    (imageSize.width : Rat))
  let h := roundHalfUp (((geminiBox.yMax - geminiBox.yMin : Int) : Rat) / 1000 *
    (imageSize.height : Rat))
  (validateBounds x y w h imageSize).map fun _ =>
    { object := matchedObject, position := ⟨x, y⟩, size := ⟨w, h⟩ }

/-- Source `transform`: `boxes.map(...)` whose body can throw, so
the first failing box aborts the whole call (`mapM` over `Except`). -/
def transform (geminiBoundingBoxes : List GeminiBoundingBox)
    (objectDescriptions : List ObjectDescription) (imageSize : ImageSize) :
    Except BoxError (List BoundingBoxDto) :=
  geminiBoundingBoxes.mapM (transformOne objectDescriptions imageSize)

/-!
Auxiliary definitions used by the theorem statements: positional access
defaults and claim-side (specification-worded) predicates that the code's
behaviour is compared against.
-/

/-- Default region for positional (`getD`) access in statements. -/
def dfltRegion : CropRegion := ⟨none, ⟨0, 0⟩, ⟨0, 0⟩⟩

/-- Default metadata entry for positional access in statements. -/
def dfltMeta : CroppedRegionMeta := ⟨0, none, ⟨0, 0⟩, 0, 0⟩

/-- Default image for positional access in statements. -/
def dfltImage : Image := ⟨0, 0, []⟩

/-- Default object description for positional access in statements. -/
def dfltObj : ObjectDescription := ⟨"", ""⟩

/-- Region at position `i` (arbitrary default out of range). -/
def regAt (regions : List CropRegion) (i : Nat) : CropRegion :=
  regions.getD i dfltRegion

/-- Object description at position `i` (arbitrary default out of range). -/
def objAt (objs : List ObjectDescription) (i : Nat) : ObjectDescription :=
  objs.getD i dfltObj

/-- Claim-side match condition for background removal, worded as the
specification words it: exact channel equality at tolerance 0, else
Euclidean RGB distance (a genuine real square root) at most the
tolerance, boundary inclusive. -/
def specMatches (p : Pixel) (target : RGBColor) (tol : Nat) : Prop :=
  if tol = 0 then
    (p.r : Int) = target.r ∧ (p.g : Int) = target.g ∧ (p.b : Int) = target.b
  else
    Real.sqrt (((p.r : ℝ) - (target.r : ℝ)) ^ 2 +
        ((p.g : ℝ) - (target.g : ℝ)) ^ 2 +
        ((p.b : ℝ) - (target.b : ℝ)) ^ 2) ≤ (tol : ℝ)

/-- Claim-side description of which check a region validation error
reports: the first violated check in the claimed order negative position
→ non-positive size → width overflow → height overflow. -/
def reportedCheckSpec (r : CropRegion) (imageWidth imageHeight : Int) :
    CropErrorKind → Prop
  | .negativePosition => r.position.x < 0 ∨ r.position.y < 0
  | .nonPositiveSize =>
    ¬(r.position.x < 0 ∨ r.position.y < 0) ∧ (r.size.w ≤ 0 ∨ r.size.h ≤ 0)
  | .beyondWidth =>
    ¬(r.position.x < 0 ∨ r.position.y < 0) ∧
      ¬(r.size.w ≤ 0 ∨ r.size.h ≤ 0) ∧
      r.position.x + r.size.w > imageWidth
  | .beyondHeight =>
    ¬(r.position.x < 0 ∨ r.position.y < 0) ∧
      ¬(r.size.w ≤ 0 ∨ r.size.h ≤ 0) ∧
      ¬(r.position.x + r.size.w > imageWidth) ∧
      r.position.y + r.size.h > imageHeight

/-- Case-insensitive containment, worded as the specification words it:
the lower-cased needle occurs contiguously inside the lower-cased
haystack. -/
def containsCI (hay needle : String) : Prop :=
  ∃ l r, (lowerStr hay).toList = l ++ (lowerStr needle).toList ++ r

/-!
Helper lemmas shared by the claim theorems.
-/

theorem mapIdxFrom_length (f : Nat → α → β) (k : Nat) (l : List α) :
    (mapIdxFrom f k l).length = l.length := by
  induction l generalizing k with
  | nil => rfl
  | cons a as ih => simp [mapIdxFrom, ih]

theorem mapIdxFrom_getElem? (f : Nat → α → β) (k i : Nat) (l : List α) :
    (mapIdxFrom f k l)[i]? = l[i]?.map (f (k + i)) := by
  induction l generalizing k i with
  | nil => simp [mapIdxFrom]
  | cons a as ih =>
    cases i with
    | zero => simp [mapIdxFrom]
    | succ n =>
      simpa [mapIdxFrom, Nat.add_assoc, Nat.add_comm 1 n] using ih (k + 1) n

theorem pixAt_map (f : Pixel → Pixel) (px : List Pixel) (i : Nat)
    (h : i < px.length) : pixAt (px.map f) i = f (pixAt px i) := by
  simp [pixAt, List.getD_eq_getElem?_getD, List.getElem?_map,
    List.getElem?_eq_getElem h]

theorem find?_eq_some_first (d : α) (p : α → Bool) (l : List α) (a : α)
    (h : l.find? p = some a) :
    ∃ i, i < l.length ∧ l.getD i d = a ∧ p a = true ∧
      ∀ j, j < i → p (l.getD j d) = false := by
  induction l with
  | nil => simp [List.find?] at h
  | cons x xs ih =>
    cases hx : p x with
    | true =>
      rw [List.find?_cons_of_pos _ hx] at h
      obtain rfl : x = a := by simpa using h
      exact ⟨0, by simp, by simp, hx, fun j hj => absurd hj (Nat.not_lt_zero j)⟩
    | false =>
      rw [List.find?_cons_of_neg _ (by simp [hx])] at h
      obtain ⟨i, hi, hgd, hpa, hfirst⟩ := ih h
      refine ⟨i + 1, by simpa using hi, by simpa using hgd, hpa, ?_⟩
      intro j hj
      cases j with
      | zero => simpa using hx
      | succ j' => simpa using hfirst j' (Nat.lt_of_succ_lt_succ hj)

theorem containsSub_iff (needle hay : List Char) :
    containsSub needle hay = true ↔ ∃ l r, hay = l ++ needle ++ r := by
  induction hay with
  | nil =>
    simp only [containsSub, List.isEmpty_iff]
    constructor
    · rintro rfl
      exact ⟨[], [], rfl⟩
    · rintro ⟨l, r, h⟩
      exact (List.append_eq_nil.mp (List.append_eq_nil.mp h.symm).1).2
  | cons c cs ih =>
    simp only [containsSub, Bool.or_eq_true, List.isPrefixOf_iff_prefix, ih]
    constructor
    · rintro (⟨t, ht⟩ | ⟨l, r, rfl⟩)
      · exact ⟨[], t, by simp [← ht]⟩
      · exact ⟨c :: l, r, rfl⟩
    · rintro ⟨l, r, h⟩
      cases l with
      | nil =>
        left
        exact ⟨r, by simpa using h.symm⟩
      | cons x xs =>
        right
        simp only [List.cons_append, List.cons.injEq] at h
        exact ⟨xs, r, h.2⟩

/-!
Claim theorems.
-/

/-- Claim C4 (counterexample): the claim says `validateBounds` applies the
same per-box check order as `validateCropRegions` (negative position, then
non-positive size, then width overflow, then height overflow) and reports
the first violated check.  For the detected box `[0, 500, 0, 1000]` on a
3×3 image the transformed rectangle is `(x, y, w, h) = (2, 0, 2, 0)`; the
first violated check in the claimed order is the non-positive size check
(`h = 0`), but the code reports the combined out-of-bounds check
(`x + w = 4 > 3`), because `validateBounds` checks bounds before size. -/
theorem claim_C4_counterexample :
    transform [⟨"t", 0, 500, 0, 1000⟩] [] ⟨3, 3⟩ = .error .outOfBounds ∧
    roundHalfUp ((((500 : Int) : Rat)) / 1000 * ((3 : Int) : Rat)) = 2 ∧
    roundHalfUp ((((0 : Int) : Rat)) / 1000 * ((3 : Int) : Rat)) = 0 ∧
    checkRegion ⟨none, ⟨2, 0⟩, ⟨2, 0⟩⟩ 3 3 = some .nonPositiveSize ∧
    BoxError.outOfBounds ≠ BoxError.nonPositiveSize := by
  have h500 : roundHalfUp ((((500 : Int) : Rat)) / 1000 * ((3 : Int) : Rat)) = 2 := by
    unfold roundHalfUp
    rw [Int.floor_eq_iff]
    constructor <;> norm_num
  have h0 : roundHalfUp ((((0 : Int) : Rat)) / 1000 * ((3 : Int) : Rat)) = 0 := by
    unfold roundHalfUp
    rw [Int.floor_eq_iff]
    constructor <;> norm_num
  refine ⟨?_, h500, h0, by decide, by decide⟩
  have h32 : roundHalfUp ((3 : Rat) / 2) = 2 := by
    unfold roundHalfUp
    rw [Int.floor_eq_iff]
    constructor <;> norm_num
  have hz : roundHalfUp (0 : Rat) = 0 := by
    unfold roundHalfUp
    rw [Int.floor_eq_iff]
    constructor <;> norm_num
  have hone : transformOne [] ⟨3, 3⟩ ⟨"t", 0, 500, 0, 1000⟩ = .error .outOfBounds := by
    unfold transformOne
    simp only [findMatchingObject, List.find?_nil]
    norm_num
    rw [h32, hz]
    decide
  show List.mapM _ _ = _
  rw [List.mapM_cons, hone]
  rfl

/-- Claim C4 (amended): `validateBounds` applies its checks per box in the
order negative position first, then the combined extent check (right edge
beyond width OR bottom edge beyond height, reported as one out-of-bounds
error), then non-positive size, and reports the first violated check in
that order. -/
theorem claim_C4_amended (x y w h : Int) (sz : ImageSize) :
    (validateBounds x y w h sz = .error .negativePosition ↔
      x < 0 ∨ y < 0) ∧
    (validateBounds x y w h sz = .error .outOfBounds ↔
      ¬(x < 0 ∨ y < 0) ∧ (x + w > sz.width ∨ y + h > sz.height)) ∧
    (validateBounds x y w h sz = .error .nonPositiveSize ↔
      ¬(x < 0 ∨ y < 0) ∧ ¬(x + w > sz.width ∨ y + h > sz.height) ∧
        (w ≤ 0 ∨ h ≤ 0)) ∧
    (validateBounds x y w h sz = .ok () ↔
      ¬(x < 0 ∨ y < 0) ∧ ¬(x + w > sz.width ∨ y + h > sz.height) ∧
        ¬(w ≤ 0 ∨ h ≤ 0)) := by
  unfold validateBounds
  split_ifs with h1 h2 h3 <;> simp_all

/-- Claim C9: in `parseRgb`'s numeric stage the result is fully determined
by the first three tokens (so a fourth alpha token — replaced by any other
token or dropped, as long as three tokens remain — never affects the
returned colour); fewer than three tokens fail; and a successful parse
means at least three numeric (`parseFloat`-able) tokens were present. -/
theorem claim_C9 :
    (∀ ts us : List String, 3 ≤ ts.length → 3 ≤ us.length →
      ts.take 3 = us.take 3 → parseRgbTokens ts = parseRgbTokens us) ∧
    (∀ ts : List String, ts.length < 3 →
      parseRgbTokens ts = .error .invalidRgbCount) ∧
    (∀ ts c, parseRgbTokens ts = .ok c →
      3 ≤ (ts.filter fun t => (parseFloatQ t).isSome).length) := by
  refine ⟨?_, ?_, ?_⟩
  · intro ts us hts hus htake
    match ts, us with
    | t0 :: t1 :: t2 :: tr, u0 :: u1 :: u2 :: ur =>
      simp only [List.take, List.cons.injEq, and_true] at htake
      obtain ⟨rfl, rfl, rfl⟩ := htake
      rfl
    | [], _ | [_], _ | [_, _], _ => simp at hts
    | _ :: _ :: _ :: _, [] | _ :: _ :: _ :: _, [_]
    | _ :: _ :: _ :: _, [_, _] => simp at hus
  · intro ts hlen
    match ts with
    | [] => rfl
    | [_] => rfl
    | [_, _] => rfl
    | _ :: _ :: _ :: _ => simp at hlen; omega
  · intro ts c hok
    match ts with
    | [] => simp [parseRgbTokens] at hok
    | [_] => simp [parseRgbTokens] at hok
    | [_, _] => simp [parseRgbTokens] at hok
    | t0 :: t1 :: t2 :: tr =>
      have h0 : (parseFloatQ t0).isSome = true ∧ (parseFloatQ t1).isSome = true ∧
          (parseFloatQ t2).isSome = true := by
        simp only [parseRgbTokens, List.map_cons] at hok
        rcases hv0 : parseFloatQ t0 with _ | v0 <;>
          rcases hv1 : parseFloatQ t1 with _ | v1 <;>
          rcases hv2 : parseFloatQ t2 with _ | v2 <;>
          rw [hv0, hv1, hv2] at hok <;>
          simp [validateRGB] at hok ⊢
      rw [List.filter_cons_of_pos (by simp [h0.1]),
        List.filter_cons_of_pos (by simp [h0.2.1]),
        List.filter_cons_of_pos (by simp [h0.2.2])]
      simp [Nat.le_add_left]

/-- Claim C9 witness: a concrete rgb token list with a fourth (alpha)
token parses identically to the same list with the alpha token removed. -/
theorem claim_C9_witness :
    parseRgbTokens ["10", "20", "30", "0.5"] = parseRgbTokens ["10", "20", "30"] :=
  claim_C9.1 ["10", "20", "30", "0.5"] ["10", "20", "30"]
    (by decide) (by decide) (by decide)

theorem containsCI_iff (a b : String) :
    containsCI a b ↔ strIncludes (lowerStr a) (lowerStr b) = true := by
  unfold containsCI strIncludes
  exact (containsSub_iff _ _).symm

/-- Claim C7: label resolution follows exactly the three-tier priority —
first requested object with a case-insensitive exact name match; else the
first whose name case-insensitively contains, or is contained in, the
label; else the raw detected label — and therefore never fails. -/
theorem claim_C7 (geminiLabel : String) (objs : List ObjectDescription) :
    ((∃ o ∈ objs, lowerStr o.name = lowerStr geminiLabel) →
      ∃ i, i < objs.length ∧
        findMatchingObject geminiLabel objs = (objAt objs i).name ∧
        lowerStr (objAt objs i).name = lowerStr geminiLabel ∧
        ∀ j, j < i → lowerStr (objAt objs j).name ≠ lowerStr geminiLabel) ∧
    ((¬ ∃ o ∈ objs, lowerStr o.name = lowerStr geminiLabel) →
      (∃ o ∈ objs, containsCI geminiLabel o.name ∨ containsCI o.name geminiLabel) →
      ∃ i, i < objs.length ∧
        findMatchingObject geminiLabel objs = (objAt objs i).name ∧
        (containsCI geminiLabel (objAt objs i).name ∨
          containsCI (objAt objs i).name geminiLabel) ∧
        ∀ j, j < i →
          ¬(containsCI geminiLabel (objAt objs j).name ∨
            containsCI (objAt objs j).name geminiLabel)) ∧
    ((¬ ∃ o ∈ objs, lowerStr o.name = lowerStr geminiLabel) →
      (¬ ∃ o ∈ objs, containsCI geminiLabel o.name ∨ containsCI o.name geminiLabel) →
      findMatchingObject geminiLabel objs = geminiLabel) := by
  refine ⟨?_, ?_, ?_⟩
  · intro hex
    rcases h1 : objs.find? (fun obj => lowerStr obj.name = lowerStr geminiLabel)
      with _ | a
    · exfalso
      obtain ⟨o, ho, heq⟩ := hex
      have hno := List.find?_eq_none.mp h1 o ho
      simp [heq] at hno
    · obtain ⟨i, hi, hgd, hpa, hfirst⟩ := find?_eq_some_first dfltObj _ objs a h1
      have hobj : objAt objs i = a := hgd
      refine ⟨i, hi, ?_, ?_, ?_⟩
      · unfold findMatchingObject
        rw [h1, hobj]
      · rw [hobj]
        simpa using hpa
      · intro j hj
        have := hfirst j hj
        simpa [objAt] using this
  · intro hex hpart
    have h1 : objs.find? (fun obj => lowerStr obj.name = lowerStr geminiLabel)
        = none := by
      rw [List.find?_eq_none]
      intro o ho
      simp only [decide_eq_true_eq]
      exact fun heq => hex ⟨o, ho, heq⟩
    rcases h2 : objs.find? (fun obj =>
        strIncludes (lowerStr geminiLabel) (lowerStr obj.name) ||
          strIncludes (lowerStr obj.name) (lowerStr geminiLabel)) with _ | b
    · exfalso
      obtain ⟨o, ho, hc⟩ := hpart
      have hno := List.find?_eq_none.mp h2 o ho
      rcases hc with hc | hc
      · rw [containsCI_iff] at hc
        simp [hc] at hno
      · rw [containsCI_iff] at hc
        simp [hc] at hno
    · obtain ⟨i, hi, hgd, hpb, hfirst⟩ := find?_eq_some_first dfltObj _ objs b h2
      have hobj : objAt objs i = b := hgd
      refine ⟨i, hi, ?_, ?_, ?_⟩
      · unfold findMatchingObject
        rw [h1, h2, hobj]
      · rw [hobj, containsCI_iff, containsCI_iff]
        simpa using hpb
      · intro j hj
        have hf := hfirst j hj
        rw [containsCI_iff, containsCI_iff]
        intro hcon
        rcases hcon with hc | hc <;> simp [objAt] at hf hc ⊢ <;>
          simp [hc] at hf
  · intro hex hpart
    have h1 : objs.find? (fun obj => lowerStr obj.name = lowerStr geminiLabel)
        = none := by
      rw [List.find?_eq_none]
      intro o ho
      simp only [decide_eq_true_eq]
      exact fun heq => hex ⟨o, ho, heq⟩
    have h2 : objs.find? (fun obj =>
        strIncludes (lowerStr geminiLabel) (lowerStr obj.name) ||
          strIncludes (lowerStr obj.name) (lowerStr geminiLabel)) = none := by
      rw [List.find?_eq_none]
      intro o ho
      simp only [Bool.or_eq_true, not_or]
      constructor
      · intro hc
        exact hpart ⟨o, ho, Or.inl ((containsCI_iff _ _).mpr hc)⟩
      · intro hc
        exact hpart ⟨o, ho, Or.inr ((containsCI_iff _ _).mpr hc)⟩
    unfold findMatchingObject
    rw [h1, h2]

/-- Claim C7 witness: with label `"BOY"` and requests `dog`, `Boy`, the
exact tier applies and resolves to the second request's name. -/
theorem claim_C7_witness :
    ∃ i, i < ([⟨"dog", ""⟩, ⟨"Boy", ""⟩] : List ObjectDescription).length ∧
      findMatchingObject "BOY" [⟨"dog", ""⟩, ⟨"Boy", ""⟩] =
        (objAt [⟨"dog", ""⟩, ⟨"Boy", ""⟩] i).name ∧
      lowerStr (objAt [⟨"dog", ""⟩, ⟨"Boy", ""⟩] i).name = lowerStr "BOY" ∧
      ∀ j, j < i →
        lowerStr (objAt [⟨"dog", ""⟩, ⟨"Boy", ""⟩] j).name ≠ lowerStr "BOY" :=
  (claim_C7 "BOY" [⟨"dog", ""⟩, ⟨"Boy", ""⟩]).1
    ⟨⟨"Boy", ""⟩, by decide, by decide⟩

theorem isColorMatch_iff_spec (p : Pixel) (target : RGBColor) (tol : Nat) :
    isColorMatch (pixelColorOf p) target tol = true ↔ specMatches p target tol := by
  unfold isColorMatch specMatches pixelColorOf dist2
  by_cases h : tol = 0
  · simp [h]
  · rw [if_neg h, if_neg h, decide_eq_true_eq, Real.sqrt_le_iff]
    constructor
    · intro hle
      refine ⟨by positivity, ?_⟩
      have : ((((p.r : Int) - target.r) ^ 2 + ((p.g : Int) - target.g) ^ 2 +
          ((p.b : Int) - target.b) ^ 2 : Int) : ℝ) ≤ (((tol : Int) ^ 2 : Int) : ℝ) := by
        exact_mod_cast hle
      push_cast at this
      convert this using 2
    · rintro ⟨-, hle⟩
      have h2 : ((((p.r : Int) - target.r) ^ 2 + ((p.g : Int) - target.g) ^ 2 +
          ((p.b : Int) - target.b) ^ 2 : Int) : ℝ) ≤ (((tol : Int) ^ 2 : Int) : ℝ) := by
        push_cast
        convert hle using 2
      exact_mod_cast h2

/-- Claim C1: for every decoded pixel, with tolerance 0 the alpha is
zeroed exactly when (r,g,b) equals the target on all three channels; with
tolerance T > 0 exactly when the Euclidean RGB distance
`sqrt((r-tr)² + (g-tg)² + (b-tb)²)` is at most T (boundary inclusive);
non-matching pixels are left entirely untouched, alpha included
(`specMatches` states the claim-side condition with a real square root). -/
theorem claim_C1 (px : List Pixel) (target : RGBColor) (tol : Nat) (i : Nat)
    (hi : i < px.length) :
    (removeColorPixels px target tol).length = px.length ∧
    (specMatches (pixAt px i) target tol →
      pixAt (removeColorPixels px target tol) i = { pixAt px i with a := 0 }) ∧
    (¬ specMatches (pixAt px i) target tol →
      pixAt (removeColorPixels px target tol) i = pixAt px i) := by
  refine ⟨by simp [removeColorPixels], ?_, ?_⟩
  · intro hs
    unfold removeColorPixels
    rw [pixAt_map _ px i hi, if_pos ((isColorMatch_iff_spec _ _ _).mpr hs)]
  · intro hs
    unfold removeColorPixels
    rw [pixAt_map _ px i hi,
      if_neg (fun hb => hs ((isColorMatch_iff_spec _ _ _).mp hb))]

/-- Claim C1 witness: a 1-pixel buffer at distance 5 from black with
tolerance 5 (boundary inclusive). -/
theorem claim_C1_witness :
    (removeColorPixels [⟨3, 4, 0, 7⟩] ⟨0, 0, 0⟩ 5).length =
      [(⟨3, 4, 0, 7⟩ : Pixel)].length ∧
    (specMatches (pixAt [⟨3, 4, 0, 7⟩] 0) ⟨0, 0, 0⟩ 5 →
      pixAt (removeColorPixels [⟨3, 4, 0, 7⟩] ⟨0, 0, 0⟩ 5) 0 =
        { pixAt [⟨3, 4, 0, 7⟩] 0 with a := 0 }) ∧
    (¬ specMatches (pixAt [⟨3, 4, 0, 7⟩] 0) ⟨0, 0, 0⟩ 5 →
      pixAt (removeColorPixels [⟨3, 4, 0, 7⟩] ⟨0, 0, 0⟩ 5) 0 =
        pixAt [⟨3, 4, 0, 7⟩] 0) :=
  claim_C1 [⟨3, 4, 0, 7⟩] ⟨0, 0, 0⟩ 5 0 (by decide)

theorem maskRegionPixels_length (W H : Nat) (px : List Pixel) (r : CropRegion) :
    (maskRegionPixels W H px r).length = px.length :=
  mapIdxFrom_length _ _ _

theorem pixAt_maskRegionPixels (W H : Nat) (px : List Pixel) (r : CropRegion)
    (i : Nat) (hi : i < px.length) :
    pixAt (maskRegionPixels W H px r) i =
      if inMaskWindow W H r i then { pixAt px i with a := 0 } else pixAt px i := by
  unfold maskRegionPixels
  simp only [pixAt, List.getD_eq_getElem?_getD, mapIdxFrom_getElem?, Nat.zero_add,
    List.getElem?_eq_getElem hi, Option.map_some', Option.getD_some]

theorem maskFold_length (W H : Nat) (regions : List CropRegion) (px : List Pixel) :
    (regions.foldl (maskRegionPixels W H) px).length = px.length := by
  induction regions generalizing px with
  | nil => rfl
  | cons r rs ih =>
    rw [List.foldl_cons, ih, maskRegionPixels_length]

theorem pixAt_maskFold (W H : Nat) (regions : List CropRegion) (px : List Pixel)
    (i : Nat) (hi : i < px.length) :
    pixAt (regions.foldl (maskRegionPixels W H) px) i =
      if ∃ r ∈ regions, inMaskWindow W H r i then { pixAt px i with a := 0 }
      else pixAt px i := by
  induction regions generalizing px with
  | nil => simp
  | cons r rs ih =>
    rw [List.foldl_cons]
    have hlen : i < (maskRegionPixels W H px r).length := by
      rw [maskRegionPixels_length]; exact hi
    rw [ih (maskRegionPixels W H px r) hlen, pixAt_maskRegionPixels W H px r i hi]
    by_cases hr : inMaskWindow W H r i = true
    · rw [if_pos hr]
      have hcons : ∃ x ∈ r :: rs, inMaskWindow W H x i :=
        ⟨r, List.mem_cons_self r rs, hr⟩
      rw [if_pos hcons]
      split <;> rfl
    · rw [if_neg hr]
      have hcons : (∃ x ∈ r :: rs, inMaskWindow W H x i) ↔
          (∃ x ∈ rs, inMaskWindow W H x i) := by
        simp only [List.mem_cons]
        constructor
        · rintro ⟨x, hx | hx, hw⟩
          · exact absurd (hx ▸ hw) hr
          · exact ⟨x, hx, hw⟩
        · rintro ⟨x, hx, hw⟩
          exact ⟨x, Or.inr hx, hw⟩
      by_cases hrs : ∃ x ∈ rs, inMaskWindow W H x i
      · rw [if_pos hrs, if_pos (hcons.mpr hrs)]
      · rw [if_neg hrs, if_neg (fun hc => hrs (hcons.mp hc))]

/-- Claim C10: neither the background-removal scan nor the background
masking pass ever changes a pixel's R, G or B bytes; the only byte either
may write is alpha, the only value written is 0, and alpha never
increases. -/
theorem claim_C10 :
    (∀ (px : List Pixel) (target : RGBColor) (tol i : Nat), i < px.length →
      (pixAt (removeColorPixels px target tol) i).r = (pixAt px i).r ∧
      (pixAt (removeColorPixels px target tol) i).g = (pixAt px i).g ∧
      (pixAt (removeColorPixels px target tol) i).b = (pixAt px i).b ∧
      ((pixAt (removeColorPixels px target tol) i).a = (pixAt px i).a ∨
        (pixAt (removeColorPixels px target tol) i).a = 0) ∧
      (pixAt (removeColorPixels px target tol) i).a ≤ (pixAt px i).a) ∧
    (∀ (im : Image) (regions : List CropRegion) (i : Nat),
      i < im.pixels.length →
      (pixAt (generateBackgroundWithTransparency im regions).pixels i).r =
        (pixAt im.pixels i).r ∧
      (pixAt (generateBackgroundWithTransparency im regions).pixels i).g =
        (pixAt im.pixels i).g ∧
      (pixAt (generateBackgroundWithTransparency im regions).pixels i).b =
        (pixAt im.pixels i).b ∧
      ((pixAt (generateBackgroundWithTransparency im regions).pixels i).a =
          (pixAt im.pixels i).a ∨
        (pixAt (generateBackgroundWithTransparency im regions).pixels i).a = 0) ∧
      (pixAt (generateBackgroundWithTransparency im regions).pixels i).a ≤
        (pixAt im.pixels i).a) := by
  constructor
  · intro px target tol i hi
    unfold removeColorPixels
    rw [pixAt_map _ px i hi]
    split
    · exact ⟨rfl, rfl, rfl, Or.inr rfl, Nat.zero_le _⟩
    · exact ⟨rfl, rfl, rfl, Or.inl rfl, Nat.le_refl _⟩
  · intro im regions i hi
    rw [show (generateBackgroundWithTransparency im regions).pixels =
        regions.foldl (maskRegionPixels im.width im.height) im.pixels from rfl,
      pixAt_maskFold im.width im.height regions im.pixels i hi]
    split
    · exact ⟨rfl, rfl, rfl, Or.inr rfl, Nat.zero_le _⟩
    · exact ⟨rfl, rfl, rfl, Or.inl rfl, Nat.le_refl _⟩

/-- Claim C10 witness: a 2×1 image with one region covering the first
pixel only. -/
theorem claim_C10_witness :
    (pixAt (removeColorPixels [⟨1, 2, 3, 9⟩] ⟨1, 2, 3⟩ 0) 0).r =
      (pixAt [⟨1, 2, 3, 9⟩] 0).r ∧
    (pixAt (removeColorPixels [⟨1, 2, 3, 9⟩] ⟨1, 2, 3⟩ 0) 0).g =
      (pixAt [⟨1, 2, 3, 9⟩] 0).g ∧
    (pixAt (removeColorPixels [⟨1, 2, 3, 9⟩] ⟨1, 2, 3⟩ 0) 0).b =
      (pixAt [⟨1, 2, 3, 9⟩] 0).b ∧
    ((pixAt (removeColorPixels [⟨1, 2, 3, 9⟩] ⟨1, 2, 3⟩ 0) 0).a =
        (pixAt [⟨1, 2, 3, 9⟩] 0).a ∨
      (pixAt (removeColorPixels [⟨1, 2, 3, 9⟩] ⟨1, 2, 3⟩ 0) 0).a = 0) ∧
    (pixAt (removeColorPixels [⟨1, 2, 3, 9⟩] ⟨1, 2, 3⟩ 0) 0).a ≤
      (pixAt [⟨1, 2, 3, 9⟩] 0).a :=
  claim_C10.1 [⟨1, 2, 3, 9⟩] ⟨1, 2, 3⟩ 0 0 (by decide)

theorem validateFrom_some (W H : Int) (regions : List CropRegion) (k : Nat)
    (e : CropError) (h : validateCropRegionsFrom k W H regions = some e) :
    k ≤ e.index ∧ e.index - k < regions.length ∧
    checkRegion (regAt regions (e.index - k)) W H = some e.kind ∧
    ∀ j, j < e.index - k → checkRegion (regAt regions j) W H = none := by
  induction regions generalizing k with
  | nil => simp [validateCropRegionsFrom] at h
  | cons r rs ih =>
    unfold validateCropRegionsFrom at h
    cases hc : checkRegion r W H with
    | some kind =>
      rw [hc] at h
      obtain rfl : (⟨k, kind⟩ : CropError) = e := by simpa using h
      refine ⟨Nat.le_refl k, by simp, ?_, ?_⟩
      · simpa [regAt] using hc
      · intro j hj
        simp [Nat.sub_self] at hj
    | none =>
      rw [hc] at h
      obtain ⟨hk, hlt, hcheck, hfirst⟩ := ih (k + 1) h
      have hik : k < e.index := Nat.lt_of_succ_le hk
      have hsub : e.index - k = (e.index - (k + 1)) + 1 := by omega
      refine ⟨Nat.le_of_lt hik, ?_, ?_, ?_⟩
      · rw [hsub]
        simpa using Nat.succ_lt_succ hlt
      · rw [hsub]
        simpa [regAt] using hcheck
      · intro j hj
        cases j with
        | zero => simpa [regAt] using hc
        | succ j' =>
          have hj' : j' < e.index - (k + 1) := by omega
          simpa [regAt] using hfirst j' hj'

theorem validateFrom_none (W H : Int) (regions : List CropRegion) (k : Nat)
    (h : validateCropRegionsFrom k W H regions = none) :
    ∀ j, j < regions.length → checkRegion (regAt regions j) W H = none := by
  induction regions generalizing k with
  | nil =>
    intro j hj
    simp at hj
  | cons r rs ih =>
    unfold validateCropRegionsFrom at h
    cases hc : checkRegion r W H with
    | some kind =>
      rw [hc] at h
      cases h
    | none =>
      rw [hc] at h
      intro j hj
      cases j with
      | zero => simpa [regAt] using hc
      | succ j' =>
        simpa [regAt] using ih (k + 1) h j' (by simpa using Nat.lt_of_succ_lt_succ hj)

theorem checkRegion_some_spec (r : CropRegion) (W H : Int) (k : CropErrorKind)
    (h : checkRegion r W H = some k) : reportedCheckSpec r W H k := by
  unfold checkRegion at h
  split_ifs at h with h1 h2 h3 h4
  · injection h with h
    subst h
    exact h1
  · injection h with h
    subst h
    exact ⟨h1, h2⟩
  · injection h with h
    subst h
    exact ⟨h1, h2, h3⟩
  · injection h with h
    subst h
    exact ⟨h1, h2, h3, h4⟩

/-- Claim C2: all regions are validated before any extraction (an invalid
region makes the whole call fail with no crops produced); regions are
scanned in input order and per region the checks run negative position →
non-positive size → width overflow → height overflow; the reported error
carries the first offending region's index and its first violated check
(`reportedCheckSpec` states the claimed check order). -/
theorem claim_C2 :
    (∀ (im : Image) (regions : List CropRegion) (incl : Bool) (e : CropError),
      validateCropRegions regions im.width im.height = some e →
      cropRegions im regions incl = .error e ∧
      e.index < regions.length ∧
      checkRegion (regAt regions e.index) im.width im.height = some e.kind ∧
      (∀ j, j < e.index →
        checkRegion (regAt regions j) im.width im.height = none) ∧
      reportedCheckSpec (regAt regions e.index) im.width im.height e.kind) ∧
    (∀ (im : Image) (regions : List CropRegion) (incl : Bool) (j : Nat),
      j < regions.length →
      checkRegion (regAt regions j) im.width im.height ≠ none →
      ∃ e, cropRegions im regions incl = .error e) := by
  constructor
  · intro im regions incl e hv
    have hv' : validateCropRegionsFrom 0 im.width im.height regions = some e := hv
    obtain ⟨-, hlt, hcheck, hfirst⟩ :=
      validateFrom_some im.width im.height regions 0 e hv'
    rw [Nat.sub_zero] at hlt hcheck
    refine ⟨?_, hlt, hcheck, fun j hj => hfirst j (by omega),
      checkRegion_some_spec _ _ _ _ hcheck⟩
    unfold cropRegions
    rw [hv]
  · intro im regions incl j hj hcheck
    cases hv : validateCropRegions regions im.width im.height with
    | some e =>
      refine ⟨e, ?_⟩
      unfold cropRegions
      rw [hv]
    | none =>
      exact absurd (validateFrom_none im.width im.height regions 0 hv j hj) hcheck

/-- Claim C2 witness: on a 2×2 image, with a valid first region and a
second region at a negative position, the whole call fails with the error
naming index 1 and the negative-position check. -/
theorem claim_C2_witness :
    cropRegions ⟨2, 2, []⟩
        [⟨none, ⟨0, 0⟩, ⟨1, 1⟩⟩, ⟨none, ⟨-1, 0⟩, ⟨1, 1⟩⟩] true =
      .error ⟨1, .negativePosition⟩ ∧
    (1 : Nat) < ([⟨none, ⟨0, 0⟩, ⟨1, 1⟩⟩, ⟨none, ⟨-1, 0⟩, ⟨1, 1⟩⟩] :
      List CropRegion).length ∧
    checkRegion (regAt [⟨none, ⟨0, 0⟩, ⟨1, 1⟩⟩, ⟨none, ⟨-1, 0⟩, ⟨1, 1⟩⟩] 1)
        (⟨2, 2, []⟩ : Image).width (⟨2, 2, []⟩ : Image).height =
      some CropErrorKind.negativePosition ∧
    (∀ j, j < (1 : Nat) →
      checkRegion (regAt [⟨none, ⟨0, 0⟩, ⟨1, 1⟩⟩, ⟨none, ⟨-1, 0⟩, ⟨1, 1⟩⟩] j)
        (⟨2, 2, []⟩ : Image).width (⟨2, 2, []⟩ : Image).height = none) ∧
    reportedCheckSpec (regAt [⟨none, ⟨0, 0⟩, ⟨1, 1⟩⟩, ⟨none, ⟨-1, 0⟩, ⟨1, 1⟩⟩] 1)
      (⟨2, 2, []⟩ : Image).width (⟨2, 2, []⟩ : Image).height
      CropErrorKind.negativePosition :=
  claim_C2.1 ⟨2, 2, []⟩ [⟨none, ⟨0, 0⟩, ⟨1, 1⟩⟩, ⟨none, ⟨-1, 0⟩, ⟨1, 1⟩⟩] true
    ⟨1, .negativePosition⟩ (by decide)

/-- Claim C5: a successful `cropRegions` call with n regions yields
exactly n cropped images and n metadata entries, positionally aligned:
entry i carries index i and mirrors region i's position, size and object
label, image i is the window of the source raster described by region i,
and `originalDimensions` are the decoded source's dimensions. -/
theorem claim_C5 (im : Image) (regions : List CropRegion) (incl : Bool)
    (res : CropResult) (h : cropRegions im regions incl = .ok res) :
    res.croppedImages.length = regions.length ∧
    res.metadata.croppedRegions.length = regions.length ∧
    res.metadata.originalWidth = im.width ∧
    res.metadata.originalHeight = im.height ∧
    ∀ i, i < regions.length →
      res.metadata.croppedRegions.getD i dfltMeta =
        { index := i
          object := (regAt regions i).object
          position := (regAt regions i).position
          sizeWidth := (regAt regions i).size.w
          sizeHeight := (regAt regions i).size.h } ∧
      res.croppedImages.getD i dfltImage = extractCropRegion im (regAt regions i) := by
  unfold cropRegions at h
  cases hv : validateCropRegions regions im.width im.height with
  | some e =>
    rw [hv] at h
    cases h
  | none =>
    rw [hv] at h
    injection h with h
    subst h
    refine ⟨by simp, mapIdxFrom_length _ _ _, rfl, rfl, ?_⟩
    intro i hi
    constructor
    · show (mapIdxFrom _ 0 regions).getD i dfltMeta = _
      rw [List.getD_eq_getElem?_getD, mapIdxFrom_getElem?,
        List.getElem?_eq_getElem hi, Nat.zero_add]
      simp only [Option.map_some', Option.getD_some]
      have : regAt regions i = regions[i] := by
        simp [regAt, List.getD_eq_getElem?_getD, List.getElem?_eq_getElem hi]
      rw [this]
    · show (regions.map (extractCropRegion im)).getD i dfltImage = _
      rw [List.getD_eq_getElem?_getD, List.getElem?_map,
        List.getElem?_eq_getElem hi]
      simp only [Option.map_some', Option.getD_some]
      have : regAt regions i = regions[i] := by
        simp [regAt, List.getD_eq_getElem?_getD, List.getElem?_eq_getElem hi]
      rw [this]

/-- Claim C5 witness: one region on a 2×2 image; the single metadata
entry mirrors it and the single crop is its window. -/
theorem claim_C5_witness :
    (CropResult.croppedImages
        { croppedImages := [⟨1, 1, [⟨1, 2, 3, 4⟩]⟩]
          backgroundImage := none
          metadata :=
            { originalWidth := 2
              originalHeight := 2
              croppedRegions := [⟨0, none, ⟨1, 0⟩, 1, 1⟩] } }).length =
      ([⟨none, ⟨1, 0⟩, ⟨1, 1⟩⟩] : List CropRegion).length ∧
    (CropResult.metadata
        { croppedImages := [⟨1, 1, [⟨1, 2, 3, 4⟩]⟩]
          backgroundImage := none
          metadata :=
            { originalWidth := 2
              originalHeight := 2
              croppedRegions := [⟨0, none, ⟨1, 0⟩, 1, 1⟩] } }).croppedRegions.length =
      ([⟨none, ⟨1, 0⟩, ⟨1, 1⟩⟩] : List CropRegion).length ∧
    (CropResult.metadata
        { croppedImages := [⟨1, 1, [⟨1, 2, 3, 4⟩]⟩]
          backgroundImage := none
          metadata :=
            { originalWidth := 2
              originalHeight := 2
              croppedRegions := [⟨0, none, ⟨1, 0⟩, 1, 1⟩] } }).originalWidth =
      (⟨2, 2, [⟨9, 9, 9, 9⟩, ⟨1, 2, 3, 4⟩, ⟨5, 6, 7, 8⟩, ⟨2, 2, 2, 2⟩]⟩ : Image).width ∧
    (CropResult.metadata
        { croppedImages := [⟨1, 1, [⟨1, 2, 3, 4⟩]⟩]
          backgroundImage := none
          metadata :=
            { originalWidth := 2
              originalHeight := 2
              croppedRegions := [⟨0, none, ⟨1, 0⟩, 1, 1⟩] } }).originalHeight =
      (⟨2, 2, [⟨9, 9, 9, 9⟩, ⟨1, 2, 3, 4⟩, ⟨5, 6, 7, 8⟩, ⟨2, 2, 2, 2⟩]⟩ : Image).height ∧
    ∀ i, i < ([⟨none, ⟨1, 0⟩, ⟨1, 1⟩⟩] : List CropRegion).length →
      (CropResult.metadata
          { croppedImages := [⟨1, 1, [⟨1, 2, 3, 4⟩]⟩]
            backgroundImage := none
            metadata :=
              { originalWidth := 2
                originalHeight := 2
                croppedRegions := [⟨0, none, ⟨1, 0⟩, 1, 1⟩] } }).croppedRegions.getD
          i dfltMeta =
        { index := i
          object := (regAt [⟨none, ⟨1, 0⟩, ⟨1, 1⟩⟩] i).object
          position := (regAt [⟨none, ⟨1, 0⟩, ⟨1, 1⟩⟩] i).position
          sizeWidth := (regAt [⟨none, ⟨1, 0⟩, ⟨1, 1⟩⟩] i).size.w
          sizeHeight := (regAt [⟨none, ⟨1, 0⟩, ⟨1, 1⟩⟩] i).size.h } ∧
      (CropResult.croppedImages
          { croppedImages := [⟨1, 1, [⟨1, 2, 3, 4⟩]⟩]
            backgroundImage := none
            metadata :=
              { originalWidth := 2
                originalHeight := 2
                croppedRegions := [⟨0, none, ⟨1, 0⟩, 1, 1⟩] } }).getD i dfltImage =
        extractCropRegion
          ⟨2, 2, [⟨9, 9, 9, 9⟩, ⟨1, 2, 3, 4⟩, ⟨5, 6, 7, 8⟩, ⟨2, 2, 2, 2⟩]⟩
          (regAt [⟨none, ⟨1, 0⟩, ⟨1, 1⟩⟩] i) :=
  claim_C5 ⟨2, 2, [⟨9, 9, 9, 9⟩, ⟨1, 2, 3, 4⟩, ⟨5, 6, 7, 8⟩, ⟨2, 2, 2, 2⟩]⟩
    [⟨none, ⟨1, 0⟩, ⟨1, 1⟩⟩] false
    { croppedImages := [⟨1, 1, [⟨1, 2, 3, 4⟩]⟩]
      backgroundImage := none
      metadata :=
        { originalWidth := 2
          originalHeight := 2
          croppedRegions := [⟨0, none, ⟨1, 0⟩, 1, 1⟩] } }
    (by decide)

/-- Claim C8: on success, `includeBackground = false` yields a null
background while the crops are fully populated; `includeBackground = true`
yields the source raster with alpha zeroed at exactly the pixels inside
some region's window clipped to the image bounds (regions applied in
input order), and masking is idempotent, so overlaps are harmless. -/
theorem claim_C8 :
    (∀ (im : Image) (regions : List CropRegion) (res : CropResult),
      cropRegions im regions false = .ok res →
      res.backgroundImage = none ∧
      res.croppedImages.length = regions.length) ∧
    (∀ (im : Image) (regions : List CropRegion) (res : CropResult),
      cropRegions im regions true = .ok res →
      ∃ bg, res.backgroundImage = some bg ∧
        bg.width = im.width ∧ bg.height = im.height ∧
        bg.pixels.length = im.pixels.length ∧
        ∀ i, i < im.pixels.length →
          pixAt bg.pixels i =
            if ∃ r ∈ regions, inMaskWindow im.width im.height r i then
              { pixAt im.pixels i with a := 0 }
            else pixAt im.pixels i) ∧
    (∀ (im : Image) (regions : List CropRegion),
      generateBackgroundWithTransparency
          (generateBackgroundWithTransparency im regions) regions =
        generateBackgroundWithTransparency im regions) := by
  refine ⟨?_, ?_, ?_⟩
  · intro im regions res h
    unfold cropRegions at h
    cases hv : validateCropRegions regions im.width im.height with
    | some e =>
      rw [hv] at h
      cases h
    | none =>
      rw [hv] at h
      injection h with h
      subst h
      exact ⟨rfl, by simp⟩
  · intro im regions res h
    unfold cropRegions at h
    cases hv : validateCropRegions regions im.width im.height with
    | some e =>
      rw [hv] at h
      cases h
    | none =>
      rw [hv] at h
      injection h with h
      subst h
      refine ⟨generateBackgroundWithTransparency im regions, rfl, rfl, rfl,
        maskFold_length _ _ _ _, ?_⟩
      intro i hi
      exact pixAt_maskFold im.width im.height regions im.pixels i hi
  · intro im regions
    have key : ∀ px : List Pixel,
        regions.foldl (maskRegionPixels im.width im.height)
          (regions.foldl (maskRegionPixels im.width im.height) px) =
        regions.foldl (maskRegionPixels im.width im.height) px := by
      intro px
      apply List.ext_getElem
      · rw [maskFold_length, maskFold_length]
      · intro i h1 h2
        have hi : i < px.length := by
          rw [maskFold_length, maskFold_length] at h1
          exact h1
        have hi' : i < (regions.foldl (maskRegionPixels im.width im.height)
            px).length := by
          rw [maskFold_length]
          exact hi
        have e1 : (regions.foldl (maskRegionPixels im.width im.height)
            (regions.foldl (maskRegionPixels im.width im.height) px))[i] =
            pixAt (regions.foldl (maskRegionPixels im.width im.height)
              (regions.foldl (maskRegionPixels im.width im.height) px)) i := by
          simp [pixAt, List.getD_eq_getElem?_getD, List.getElem?_eq_getElem h1]
        have e2 : (regions.foldl (maskRegionPixels im.width im.height) px)[i] =
            pixAt (regions.foldl (maskRegionPixels im.width im.height) px) i := by
          simp [pixAt, List.getD_eq_getElem?_getD, List.getElem?_eq_getElem h2]
        rw [e1, e2, pixAt_maskFold _ _ _ _ _ hi', pixAt_maskFold _ _ _ _ _ hi]
        by_cases hc : ∃ r ∈ regions, inMaskWindow im.width im.height r i
        · simp only [if_pos hc]
        · simp only [if_neg hc]
    unfold generateBackgroundWithTransparency
    dsimp only
    rw [key]

/-- Claim C8 witness: on a 2×2 image with one 1×2 region at (1,0), the
background raster zeroes alpha at exactly the two covered pixels. -/
theorem claim_C8_witness :
    ∃ bg,
      (CropResult.backgroundImage
          { croppedImages := [⟨1, 2, [⟨1, 2, 3, 4⟩, ⟨2, 2, 2, 2⟩]⟩]
            backgroundImage :=
              some ⟨2, 2, [⟨9, 9, 9, 9⟩, ⟨1, 2, 3, 0⟩, ⟨5, 6, 7, 8⟩, ⟨2, 2, 2, 0⟩]⟩
            metadata :=
              { originalWidth := 2
                originalHeight := 2
                croppedRegions := [⟨0, none, ⟨1, 0⟩, 1, 2⟩] } }) = some bg ∧
      bg.width = (⟨2, 2, [⟨9, 9, 9, 9⟩, ⟨1, 2, 3, 4⟩, ⟨5, 6, 7, 8⟩,
        ⟨2, 2, 2, 2⟩]⟩ : Image).width ∧
      bg.height = (⟨2, 2, [⟨9, 9, 9, 9⟩, ⟨1, 2, 3, 4⟩, ⟨5, 6, 7, 8⟩,
        ⟨2, 2, 2, 2⟩]⟩ : Image).height ∧
      bg.pixels.length = (⟨2, 2, [⟨9, 9, 9, 9⟩, ⟨1, 2, 3, 4⟩, ⟨5, 6, 7, 8⟩,
        ⟨2, 2, 2, 2⟩]⟩ : Image).pixels.length ∧
      ∀ i, i < (⟨2, 2, [⟨9, 9, 9, 9⟩, ⟨1, 2, 3, 4⟩, ⟨5, 6, 7, 8⟩,
          ⟨2, 2, 2, 2⟩]⟩ : Image).pixels.length →
        pixAt bg.pixels i =
          if ∃ r ∈ ([⟨none, ⟨1, 0⟩, ⟨1, 2⟩⟩] : List CropRegion),
              inMaskWindow 2 2 r i then
            { pixAt [⟨9, 9, 9, 9⟩, ⟨1, 2, 3, 4⟩, ⟨5, 6, 7, 8⟩, ⟨2, 2, 2, 2⟩] i
              with a := 0 }
          else pixAt [⟨9, 9, 9, 9⟩, ⟨1, 2, 3, 4⟩, ⟨5, 6, 7, 8⟩, ⟨2, 2, 2, 2⟩] i :=
  claim_C8.2.1 ⟨2, 2, [⟨9, 9, 9, 9⟩, ⟨1, 2, 3, 4⟩, ⟨5, 6, 7, 8⟩, ⟨2, 2, 2, 2⟩]⟩
    [⟨none, ⟨1, 0⟩, ⟨1, 2⟩⟩]
    { croppedImages := [⟨1, 2, [⟨1, 2, 3, 4⟩, ⟨2, 2, 2, 2⟩]⟩]
      backgroundImage :=
        some ⟨2, 2, [⟨9, 9, 9, 9⟩, ⟨1, 2, 3, 0⟩, ⟨5, 6, 7, 8⟩, ⟨2, 2, 2, 0⟩]⟩
      metadata :=
        { originalWidth := 2
          originalHeight := 2
          croppedRegions := [⟨0, none, ⟨1, 0⟩, 1, 2⟩] } }
    (by decide)

theorem roundHalfAway_eq_roundHalfUp (q : Rat) (h : 0 ≤ q) :
    roundHalfAway q = roundHalfUp q := by
  unfold roundHalfAway roundHalfUp
  rw [if_pos h]

/-- Claim C3: for boxes with ordered coordinates, the transformed
rectangle is `x = round(x_min/1000·width)`, `y = round(y_min/1000·height)`,
`w = round((x_max-x_min)/1000·width)`, `h = round((y_max-y_min)/1000·height)`
with round-half-away-from-zero rounding and no clamping before the bounds
check (an oversized rounded extent makes the call fail); in particular box
`[100,200,600,700]` on a 2047×1535 image yields position (409,154) and
size (1024,768). -/
theorem claim_C3 :
    (∀ (box : GeminiBoundingBox) (objs : List ObjectDescription) (sz : ImageSize),
      0 ≤ box.xMin → box.xMin ≤ box.xMax → 0 ≤ box.yMin → box.yMin ≤ box.yMax →
      0 ≤ sz.width → 0 ≤ sz.height →
      transformOne objs sz box =
        (validateBounds
            (roundHalfAway ((box.xMin : Rat) / 1000 * (sz.width : Rat)))
            (roundHalfAway ((box.yMin : Rat) / 1000 * (sz.height : Rat)))
            (roundHalfAway (((box.xMax - box.xMin : Int) : Rat) / 1000 *
              (sz.width : Rat)))
            (roundHalfAway (((box.yMax - box.yMin : Int) : Rat) / 1000 *
              (sz.height : Rat)))
            sz).map
          fun _ =>
            { object := findMatchingObject box.label objs
              position :=
                ⟨roundHalfAway ((box.xMin : Rat) / 1000 * (sz.width : Rat)),
                  roundHalfAway ((box.yMin : Rat) / 1000 * (sz.height : Rat))⟩
              size :=
                ⟨roundHalfAway (((box.xMax - box.xMin : Int) : Rat) / 1000 *
                    (sz.width : Rat)),
                  roundHalfAway (((box.yMax - box.yMin : Int) : Rat) / 1000 *
                    (sz.height : Rat))⟩ }) ∧
    transform [⟨"box", 100, 200, 600, 700⟩] [] ⟨2047, 1535⟩ =
      .ok [{ object := "box", position := ⟨409, 154⟩, size := ⟨1024, 768⟩ }] := by
  constructor
  · intro box objs sz hx0 hxle hy0 hyle hw0 hh0
    have cx : (0 : Rat) ≤ (box.xMin : Rat) := by exact_mod_cast hx0
    have cy : (0 : Rat) ≤ (box.yMin : Rat) := by exact_mod_cast hy0
    have cw : (0 : Rat) ≤ ((box.xMax - box.xMin : Int) : Rat) := by
      have : (0 : Int) ≤ box.xMax - box.xMin := by omega
      exact_mod_cast this
    have ch : (0 : Rat) ≤ ((box.yMax - box.yMin : Int) : Rat) := by
      have : (0 : Int) ≤ box.yMax - box.yMin := by omega
      exact_mod_cast this
    have cW : (0 : Rat) ≤ (sz.width : Rat) := by exact_mod_cast hw0
    have cH : (0 : Rat) ≤ (sz.height : Rat) := by exact_mod_cast hh0
    have thousand : (0 : Rat) ≤ 1000 := by norm_num
    rw [roundHalfAway_eq_roundHalfUp _ (mul_nonneg (div_nonneg cx thousand) cW),
      roundHalfAway_eq_roundHalfUp _ (mul_nonneg (div_nonneg cy thousand) cH),
      roundHalfAway_eq_roundHalfUp _ (mul_nonneg (div_nonneg cw thousand) cW),
      roundHalfAway_eq_roundHalfUp _ (mul_nonneg (div_nonneg ch thousand) cH)]
    rfl
  · have hx : roundHalfUp (((200 : Int) : Rat) / 1000 * ((2047 : Int) : Rat)) =
        409 := by
      unfold roundHalfUp
      rw [Int.floor_eq_iff]
      constructor <;> norm_num
    have hy : roundHalfUp (((100 : Int) : Rat) / 1000 * ((1535 : Int) : Rat)) =
        154 := by
      unfold roundHalfUp
      rw [Int.floor_eq_iff]
      constructor <;> norm_num
    have hw : roundHalfUp (((700 - 200 : Int) : Rat) / 1000 * ((2047 : Int) : Rat)) =
        1024 := by
      unfold roundHalfUp
      rw [Int.floor_eq_iff]
      constructor <;> norm_num
    have hh : roundHalfUp (((600 - 100 : Int) : Rat) / 1000 * ((1535 : Int) : Rat)) =
        768 := by
      unfold roundHalfUp
      rw [Int.floor_eq_iff]
      constructor <;> norm_num
    have hone : transformOne [] ⟨2047, 1535⟩ ⟨"box", 100, 200, 600, 700⟩ =
        .ok { object := "box", position := ⟨409, 154⟩, size := ⟨1024, 768⟩ } := by
      unfold transformOne
      dsimp only
      rw [hx, hy, hw, hh]
      decide
    show List.mapM _ _ = _
    rw [List.mapM_cons, hone]
    rfl

/-- Claim C3 witness: the universal part applied to the concrete box
`[100,200,600,700]` with image 2047×1535. -/
theorem claim_C3_witness :
    transformOne [] ⟨2047, 1535⟩ ⟨"box", 100, 200, 600, 700⟩ =
      (validateBounds
          (roundHalfAway (((GeminiBoundingBox.xMin ⟨"box", 100, 200, 600, 700⟩ : Int) : Rat) /
            1000 * ((ImageSize.width ⟨2047, 1535⟩ : Int) : Rat)))
          (roundHalfAway (((GeminiBoundingBox.yMin ⟨"box", 100, 200, 600, 700⟩ : Int) : Rat) /
            1000 * ((ImageSize.height ⟨2047, 1535⟩ : Int) : Rat)))
          (roundHalfAway (((GeminiBoundingBox.xMax ⟨"box", 100, 200, 600, 700⟩ -
              GeminiBoundingBox.xMin ⟨"box", 100, 200, 600, 700⟩ : Int) : Rat) /
            1000 * ((ImageSize.width ⟨2047, 1535⟩ : Int) : Rat)))
          (roundHalfAway (((GeminiBoundingBox.yMax ⟨"box", 100, 200, 600, 700⟩ -
              GeminiBoundingBox.yMin ⟨"box", 100, 200, 600, 700⟩ : Int) : Rat) /
            1000 * ((ImageSize.height ⟨2047, 1535⟩ : Int) : Rat)))
          ⟨2047, 1535⟩).map
        fun _ =>
          { object := findMatchingObject
              (GeminiBoundingBox.label ⟨"box", 100, 200, 600, 700⟩) []
            position :=
              ⟨roundHalfAway (((GeminiBoundingBox.xMin ⟨"box", 100, 200, 600, 700⟩ : Int) : Rat) /
                1000 * ((ImageSize.width ⟨2047, 1535⟩ : Int) : Rat)),
                roundHalfAway (((GeminiBoundingBox.yMin ⟨"box", 100, 200, 600, 700⟩ : Int) : Rat) /
                  1000 * ((ImageSize.height ⟨2047, 1535⟩ : Int) : Rat))⟩
            size :=
              ⟨roundHalfAway (((GeminiBoundingBox.xMax ⟨"box", 100, 200, 600, 700⟩ -
                  GeminiBoundingBox.xMin ⟨"box", 100, 200, 600, 700⟩ : Int) : Rat) /
                1000 * ((ImageSize.width ⟨2047, 1535⟩ : Int) : Rat)),
                roundHalfAway (((GeminiBoundingBox.yMax ⟨"box", 100, 200, 600, 700⟩ -
                    GeminiBoundingBox.yMin ⟨"box", 100, 200, 600, 700⟩ : Int) : Rat) /
                  1000 * ((ImageSize.height ⟨2047, 1535⟩ : Int) : Rat))⟩ } :=
  claim_C3.1 ⟨"box", 100, 200, 600, 700⟩ [] ⟨2047, 1535⟩
    (by decide) (by decide) (by decide) (by decide) (by decide) (by decide)

theorem lowerChar_eq_of_ne (c : Char) (h1 : c ≠ 'A') (h2 : c ≠ 'B') (h3 : c ≠ 'C') (h4 : c ≠ 'D') (h5 : c ≠ 'E') (h6 : c ≠ 'F') (h7 : c ≠ 'G') (h8 : c ≠ 'H') (h9 : c ≠ 'I') (h10 : c ≠ 'J') (h11 : c ≠ 'K') (h12 : c ≠ 'L') (h13 : c ≠ 'M') (h14 : c ≠ 'N') (h15 : c ≠ 'O') (h16 : c ≠ 'P') (h17 : c ≠ 'Q') (h18 : c ≠ 'R') (h19 : c ≠ 'S') (h20 : c ≠ 'T') (h21 : c ≠ 'U') (h22 : c ≠ 'V') (h23 : c ≠ 'W') (h24 : c ≠ 'X') (h25 : c ≠ 'Y') (h26 : c ≠ 'Z') :
    lowerChar c = c := by
  unfold lowerChar
  rw [if_neg h1, if_neg h2, if_neg h3, if_neg h4, if_neg h5, if_neg h6, if_neg h7, if_neg h8, if_neg h9, if_neg h10, if_neg h11, if_neg h12, if_neg h13, if_neg h14, if_neg h15, if_neg h16, if_neg h17, if_neg h18, if_neg h19, if_neg h20, if_neg h21, if_neg h22, if_neg h23, if_neg h24, if_neg h25, if_neg h26]

theorem lowerChar_whitespace (c : Char) :
    (lowerChar c).isWhitespace = c.isWhitespace := by
  by_cases h1 : c = 'A'
  · subst h1; rfl
  by_cases h2 : c = 'B'
  · subst h2; rfl
  by_cases h3 : c = 'C'
  · subst h3; rfl
  by_cases h4 : c = 'D'
  · subst h4; rfl
  by_cases h5 : c = 'E'
  · subst h5; rfl
  by_cases h6 : c = 'F'
  · subst h6; rfl
  by_cases h7 : c = 'G'
  · subst h7; rfl
  by_cases h8 : c = 'H'
  · subst h8; rfl
  by_cases h9 : c = 'I'
  · subst h9; rfl
  by_cases h10 : c = 'J'
  · subst h10; rfl
  by_cases h11 : c = 'K'
  · subst h11; rfl
  by_cases h12 : c = 'L'
  · subst h12; rfl
  by_cases h13 : c = 'M'
  · subst h13; rfl
  by_cases h14 : c = 'N'
  · subst h14; rfl
  by_cases h15 : c = 'O'
  · subst h15; rfl
  by_cases h16 : c = 'P'
  · subst h16; rfl
  by_cases h17 : c = 'Q'
  · subst h17; rfl
  by_cases h18 : c = 'R'
  · subst h18; rfl
  by_cases h19 : c = 'S'
  · subst h19; rfl
  by_cases h20 : c = 'T'
  · subst h20; rfl
  by_cases h21 : c = 'U'
  · subst h21; rfl
  by_cases h22 : c = 'V'
  · subst h22; rfl
  by_cases h23 : c = 'W'
  · subst h23; rfl
  by_cases h24 : c = 'X'
  · subst h24; rfl
  by_cases h25 : c = 'Y'
  · subst h25; rfl
  by_cases h26 : c = 'Z'
  · subst h26; rfl
  rw [lowerChar_eq_of_ne c h1 h2 h3 h4 h5 h6 h7 h8 h9 h10 h11 h12 h13 h14 h15 h16 h17 h18 h19 h20 h21 h22 h23 h24 h25 h26]

theorem lowerChar_idem (c : Char) : lowerChar (lowerChar c) = lowerChar c := by
  by_cases h1 : c = 'A'
  · subst h1; rfl
  by_cases h2 : c = 'B'
  · subst h2; rfl
  by_cases h3 : c = 'C'
  · subst h3; rfl
  by_cases h4 : c = 'D'
  · subst h4; rfl
  by_cases h5 : c = 'E'
  · subst h5; rfl
  by_cases h6 : c = 'F'
  · subst h6; rfl
  by_cases h7 : c = 'G'
  · subst h7; rfl
  by_cases h8 : c = 'H'
  · subst h8; rfl
  by_cases h9 : c = 'I'
  · subst h9; rfl
  by_cases h10 : c = 'J'
  · subst h10; rfl
  by_cases h11 : c = 'K'
  · subst h11; rfl
  by_cases h12 : c = 'L'
  · subst h12; rfl
  by_cases h13 : c = 'M'
  · subst h13; rfl
  by_cases h14 : c = 'N'
  · subst h14; rfl
  by_cases h15 : c = 'O'
  · subst h15; rfl
  by_cases h16 : c = 'P'
  · subst h16; rfl
  by_cases h17 : c = 'Q'
  · subst h17; rfl
  by_cases h18 : c = 'R'
  · subst h18; rfl
  by_cases h19 : c = 'S'
  · subst h19; rfl
  by_cases h20 : c = 'T'
  · subst h20; rfl
  by_cases h21 : c = 'U'
  · subst h21; rfl
  by_cases h22 : c = 'V'
  · subst h22; rfl
  by_cases h23 : c = 'W'
  · subst h23; rfl
  by_cases h24 : c = 'X'
  · subst h24; rfl
  by_cases h25 : c = 'Y'
  · subst h25; rfl
  by_cases h26 : c = 'Z'
  · subst h26; rfl
  have hc := lowerChar_eq_of_ne c h1 h2 h3 h4 h5 h6 h7 h8 h9 h10 h11 h12 h13 h14 h15 h16 h17 h18 h19 h20 h21 h22 h23 h24 h25 h26
  rw [hc, hc]

theorem dropWhile_dropWhile (p : Char → Bool) (l : List Char) :
    (l.dropWhile p).dropWhile p = l.dropWhile p := by
  induction l with
  | nil => rfl
  | cons a as ih =>
    by_cases h : p a = true
    · simp [List.dropWhile_cons, h, ih]
    · simp [List.dropWhile_cons, h]

theorem trimChars_map_lower (l : List Char) :
    trimChars (l.map lowerChar) = (trimChars l).map lowerChar := by
  unfold trimChars
  have hcomp : (Char.isWhitespace ∘ lowerChar) = Char.isWhitespace :=
    funext lowerChar_whitespace
  rw [List.dropWhile_map, hcomp, ← List.map_reverse, List.dropWhile_map, hcomp,
    ← List.map_reverse]

theorem trimChars_idem (l : List Char) :
    trimChars (trimChars l) = trimChars l := by
  unfold trimChars
  set A := l.dropWhile Char.isWhitespace with hA
  set B := A.reverse.dropWhile Char.isWhitespace with hB
  have h1 : B.reverse.dropWhile Char.isWhitespace = B.reverse := by
    rcases hBr : B.reverse with _ | ⟨x, xs⟩
    · rfl
    · have hpre : B.reverse <+: A := by
        have hsuf : B <:+ A.reverse := by
          rw [hB]
          exact List.dropWhile_suffix _
        have hrev := hsuf.reverse
        rwa [List.reverse_reverse] at hrev
      obtain ⟨t, ht⟩ := hpre
      rw [hBr] at ht
      have hh := List.head?_dropWhile_not Char.isWhitespace l
      rw [← hA] at hh
      have hhead : A.head? = some x := by
        rw [← ht]
        rfl
      rw [hhead] at hh
      simp [List.dropWhile_cons, hh]
  rw [h1, List.reverse_reverse,
    show B.dropWhile Char.isWhitespace = B from by
      rw [hB]; exact dropWhile_dropWhile _ _]

theorem normalizeColorString_idem (s : String) :
    normalizeColorString (normalizeColorString s) = normalizeColorString s := by
  unfold normalizeColorString
  have htl : (String.mk ((trimChars s.toList).map lowerChar)).toList =
      (trimChars s.toList).map lowerChar := rfl
  rw [htl, trimChars_map_lower, trimChars_idem, List.map_map,
    show List.map (lowerChar ∘ lowerChar) (trimChars s.toList) =
        List.map lowerChar (trimChars s.toList) from
      List.map_congr_left (fun c _ => lowerChar_idem c)]

theorem validateRGB_ok (r g b : Option Int) (c : RGBColor)
    (h : validateRGB r g b = .ok c) :
    0 ≤ c.r ∧ c.r ≤ 255 ∧ 0 ≤ c.g ∧ c.g ≤ 255 ∧ 0 ≤ c.b ∧ c.b ≤ 255 := by
  unfold validateRGB at h
  rcases r with _ | r'
  · cases h
  rcases g with _ | g'
  · cases h
  rcases b with _ | b'
  · cases h
  dsimp only at h
  split_ifs at h with hc
  injection h with h
  subst h
  push_neg at hc
  exact ⟨hc.1, hc.2.1, hc.2.2.1, hc.2.2.2.1, hc.2.2.2.2.1, hc.2.2.2.2.2⟩

theorem parseHex_ok (l : List Char) (c : RGBColor) (h : parseHex l = .ok c) :
    ∃ r g b, validateRGB r g b = .ok c := by
  rw [show parseHex l =
      (match removeFirstChar '#' l with
        | [c0, c1, c2] =>
          validateRGB (parseInt16 (String.mk [c0, c0]))
            (parseInt16 (String.mk [c1, c1]))
            (parseInt16 (String.mk [c2, c2]))
        | [c0, c1, c2, c3, c4, c5] =>
          validateRGB (parseInt16 (String.mk [c0, c1]))
            (parseInt16 (String.mk [c2, c3]))
            (parseInt16 (String.mk [c4, c5]))
        | _ => .error .invalidHexFormat) from rfl] at h
  split at h
  · exact ⟨_, _, _, h⟩
  · exact ⟨_, _, _, h⟩
  · cases h

theorem parseRgbTokens_ok (ts : List String) (c : RGBColor)
    (h : parseRgbTokens ts = .ok c) : ∃ r g b, validateRGB r g b = .ok c := by
  unfold parseRgbTokens at h
  rcases hm : ts.map parseFloatQ with _ | ⟨a, _ | ⟨b, _ | ⟨d, t⟩⟩⟩ <;>
    rw [hm] at h
  · cases h
  · cases h
  · cases h
  · exact ⟨_, _, _, h⟩

theorem parseRgb_ok (l : List Char) (c : RGBColor) (h : parseRgb l = .ok c) :
    ∃ r g b, validateRGB r g b = .ok c := by
  unfold parseRgb at h
  split at h
  case _ content heq => exact parseRgbTokens_ok _ _ h
  case _ => cases h

theorem hexDigitVal_eq_none (c : Char) (h1 : c ≠ '0') (h2 : c ≠ '1') (h3 : c ≠ '2') (h4 : c ≠ '3') (h5 : c ≠ '4') (h6 : c ≠ '5') (h7 : c ≠ '6') (h8 : c ≠ '7') (h9 : c ≠ '8') (h10 : c ≠ '9') (h11 : c ≠ 'a') (h12 : c ≠ 'b') (h13 : c ≠ 'c') (h14 : c ≠ 'd') (h15 : c ≠ 'e') (h16 : c ≠ 'f') (h17 : c ≠ 'A') (h18 : c ≠ 'B') (h19 : c ≠ 'C') (h20 : c ≠ 'D') (h21 : c ≠ 'E') (h22 : c ≠ 'F') :
    hexDigitVal c = none := by
  unfold hexDigitVal
  rw [if_neg h1, if_neg h2, if_neg h3, if_neg h4, if_neg h5, if_neg h6, if_neg h7, if_neg h8, if_neg h9, if_neg h10, if_neg h11, if_neg h12, if_neg h13, if_neg h14, if_neg h15, if_neg h16, if_neg h17, if_neg h18, if_neg h19, if_neg h20, if_neg h21, if_neg h22]

theorem hexDigitVal_chars (c : Char) (v : Nat) (h : hexDigitVal c = some v) :
    c ∈ hexChars := by
  by_cases e1 : c = '0'
  · subst e1; decide
  by_cases e2 : c = '1'
  · subst e2; decide
  by_cases e3 : c = '2'
  · subst e3; decide
  by_cases e4 : c = '3'
  · subst e4; decide
  by_cases e5 : c = '4'
  · subst e5; decide
  by_cases e6 : c = '5'
  · subst e6; decide
  by_cases e7 : c = '6'
  · subst e7; decide
  by_cases e8 : c = '7'
  · subst e8; decide
  by_cases e9 : c = '8'
  · subst e9; decide
  by_cases e10 : c = '9'
  · subst e10; decide
  by_cases e11 : c = 'a'
  · subst e11; decide
  by_cases e12 : c = 'b'
  · subst e12; decide
  by_cases e13 : c = 'c'
  · subst e13; decide
  by_cases e14 : c = 'd'
  · subst e14; decide
  by_cases e15 : c = 'e'
  · subst e15; decide
  by_cases e16 : c = 'f'
  · subst e16; decide
  by_cases e17 : c = 'A'
  · subst e17; decide
  by_cases e18 : c = 'B'
  · subst e18; decide
  by_cases e19 : c = 'C'
  · subst e19; decide
  by_cases e20 : c = 'D'
  · subst e20; decide
  by_cases e21 : c = 'E'
  · subst e21; decide
  by_cases e22 : c = 'F'
  · subst e22; decide
  rw [hexDigitVal_eq_none c e1 e2 e3 e4 e5 e6 e7 e8 e9 e10 e11 e12 e13 e14 e15 e16 e17 e18 e19 e20 e21 e22] at h
  cases h

theorem hexDigitVal_le (c : Char) (v : Nat) (h : hexDigitVal c = some v) :
    v ≤ 15 := by
  have hc := hexDigitVal_chars c v h
  fin_cases hc <;> (simp [hexDigitVal] at h; subst h; decide)

set_option maxHeartbeats 4000000 in
theorem parseInt16_digits (c0 c1 : Char) (v0 v1 : Nat)
    (h0 : hexDigitVal c0 = some v0) (h1 : hexDigitVal c1 = some v1) :
    parseInt16 (String.mk [c0, c1]) = some ((16 * v0 + v1 : Nat) : Int) := by
  have hc0 := hexDigitVal_chars c0 v0 h0
  have hc1 := hexDigitVal_chars c1 v1 h1
  fin_cases hc0 <;> fin_cases hc1 <;>
    (simp [hexDigitVal] at h0 h1; subst h0; subst h1; decide)

/-- Except-map inversion: a colour-tagged parser result that is a
colour success comes from the underlying success. -/
theorem exceptMap_colour_ok (e : Except ColorError RGBColor) (c : RGBColor)
    (h : e.map ParsedColor.colour = .ok (.colour c)) : e = .ok c := by
  cases e with
  | error err => simp [Except.map] at h
  | ok a =>
    simp [Except.map] at h
    rw [h]

theorem exceptMap_colour_ne_inherited (e : Except ColorError RGBColor)
    (p : String) : e.map ParsedColor.colour ≠ .ok (.inherited p) := by
  cases e with
  | error err => simp [Except.map]
  | ok a => simp [Except.map]

/-- Claim C6 (counterexample): the claim says the named-colour branch is
an exact table lookup and that every path ends with a `[0, 255]` range
check, but the source's JS property access hits `Object.prototype`: the
input `"constructor"` returns the inherited constructor — a truthy
non-colour value no range check ever sees, with `isValidColor` reporting
`true` — where the claim's exact-lookup parser fails with
`InvalidColorFormat`; `"__proto__"` behaves the same way. -/
theorem claim_C6_counterexample :
    parseColor "constructor" = .ok (.inherited "constructor") ∧
    exactLookupParseColor "constructor" = .error .invalidFormat ∧
    parseColor "constructor" ≠ exactLookupParseColor "constructor" ∧
    isValidColor "constructor" = true ∧
    parseColor "__proto__" = .ok (.inherited "__proto__") := by
  refine ⟨by decide, by decide, by decide, by decide, by decide⟩

/-- Claim C6 (amended): `parseColor` first trims and lower-cases and
tries the grammars in the fixed order, but its named-colour branch is
the JS property lookup `namedColors[normalized]`, which besides the
fixed table hits the inherited `Object.prototype` members: exactly the
inputs normalizing to `constructor` or `__proto__` return a truthy
non-colour value that no range check sees.  Everything else the claim
says holds: parsing is invariant under pre-normalization, every colour
ever returned has integer channels in `[0, 255]`, a leading `#` accepts
exactly 3 hex digits (each doubled: digit d becomes 17·d) or exactly 6
hex digits and any other length fails, and
`parse "WHITE" = parse "white" = {255, 255, 255}`. -/
theorem claim_C6 :
    parseColor "WHITE" = .ok (.colour ⟨255, 255, 255⟩) ∧
    parseColor "white" = .ok (.colour ⟨255, 255, 255⟩) ∧
    (∀ s : String, parseColor s = parseColor (normalizeColorString s)) ∧
    (∀ (s : String) (c : RGBColor), parseColor s = .ok (.colour c) →
      0 ≤ c.r ∧ c.r ≤ 255 ∧ 0 ≤ c.g ∧ c.g ≤ 255 ∧ 0 ≤ c.b ∧ c.b ≤ 255) ∧
    (∀ s p : String, parseColor s = .ok (.inherited p) ↔
      normalizeColorString s = p ∧ p ∈ inheritedProps) ∧
    (∀ l : List Char, (removeFirstChar '#' l).length ≠ 3 →
      (removeFirstChar '#' l).length ≠ 6 →
      parseHex l = .error .invalidHexFormat) ∧
    (∀ c0 c1 c2 v0 v1 v2, hexDigitVal c0 = some v0 →
      hexDigitVal c1 = some v1 → hexDigitVal c2 = some v2 →
      parseHex ('#' :: [c0, c1, c2]) =
        .ok ⟨((17 * v0 : Nat) : Int), ((17 * v1 : Nat) : Int),
          ((17 * v2 : Nat) : Int)⟩) ∧
    (∀ c0 c1 c2 c3 c4 c5 v0 v1 v2 v3 v4 v5, hexDigitVal c0 = some v0 →
      hexDigitVal c1 = some v1 → hexDigitVal c2 = some v2 →
      hexDigitVal c3 = some v3 → hexDigitVal c4 = some v4 →
      hexDigitVal c5 = some v5 →
      parseHex ('#' :: [c0, c1, c2, c3, c4, c5]) =
        .ok ⟨((16 * v0 + v1 : Nat) : Int), ((16 * v2 + v3 : Nat) : Int),
          ((16 * v4 + v5 : Nat) : Int)⟩) := by
  have hdef : ∀ t : String, parseColor t =
      (match namedColorsLookup (normalizeColorString t) with
       | some v => .ok v
       | none =>
         if strStartsWith (normalizeColorString t) "#" then
           (parseHex (normalizeColorString t).toList).map .colour
         else if strStartsWith (normalizeColorString t) "rgb" then
           (parseRgb (normalizeColorString t).toList).map .colour
         else .error .invalidFormat) := fun t => rfl
  have hexpand : ∀ l : List Char, parseHex l =
      (match removeFirstChar '#' l with
        | [c0, c1, c2] =>
          validateRGB (parseInt16 (String.mk [c0, c0]))
            (parseInt16 (String.mk [c1, c1]))
            (parseInt16 (String.mk [c2, c2]))
        | [c0, c1, c2, c3, c4, c5] =>
          validateRGB (parseInt16 (String.mk [c0, c1]))
            (parseInt16 (String.mk [c2, c3]))
            (parseInt16 (String.mk [c4, c5]))
        | _ => .error .invalidHexFormat) := fun l => rfl
  refine ⟨by decide, by decide, ?_, ?_, ?_, ?_, ?_, ?_⟩
  · intro s
    rw [hdef s, hdef (normalizeColorString s), normalizeColorString_idem]
  · intro s c h
    rw [hdef s] at h
    rcases hlook : namedColorsLookup (normalizeColorString s) with _ | v
    · rw [hlook] at h
      split_ifs at h
      · obtain ⟨r', g', b', hv⟩ := parseHex_ok _ _ (exceptMap_colour_ok _ _ h)
        exact validateRGB_ok _ _ _ _ hv
      · obtain ⟨r', g', b', hv⟩ := parseRgb_ok _ _ (exceptMap_colour_ok _ _ h)
        exact validateRGB_ok _ _ _ _ hv
    · rw [hlook] at h
      injection h with h
      subst h
      unfold namedColorsLookup at hlook
      rcases hfind : namedColors.find? (fun p => p.1 = normalizeColorString s)
        with _ | p
      · rw [hfind] at hlook
        dsimp only at hlook
        split_ifs at hlook
        injection hlook with hlook
        cases hlook
      · rw [hfind] at hlook
        dsimp only at hlook
        injection hlook with hlook
        injection hlook with hlook
        have hmem := List.mem_of_find?_eq_some hfind
        rw [← hlook]
        fin_cases hmem <;> decide
  · intro s p
    constructor
    · intro h
      rw [hdef s] at h
      rcases hlook : namedColorsLookup (normalizeColorString s) with _ | v
      · rw [hlook] at h
        split_ifs at h
        · exact absurd h (exceptMap_colour_ne_inherited _ _)
        · exact absurd h (exceptMap_colour_ne_inherited _ _)
      · rw [hlook] at h
        injection h with h
        subst h
        unfold namedColorsLookup at hlook
        rcases hfind : namedColors.find? (fun q => q.1 = normalizeColorString s)
          with _ | q
        · rw [hfind] at hlook
          dsimp only at hlook
          split_ifs at hlook with hmem
          injection hlook with hlook
          injection hlook with hlook
          exact ⟨hlook, hlook ▸ hmem⟩
        · rw [hfind] at hlook
          dsimp only at hlook
          injection hlook with hlook
          cases hlook
    · rintro ⟨hn, hp⟩
      subst hn
      rw [hdef s]
      have hfind : namedColors.find? (fun q => q.1 = normalizeColorString s)
          = none := by
        rw [List.find?_eq_none]
        intro q hq
        simp only [decide_eq_true_eq]
        intro he
        rw [← he] at hp
        fin_cases hq <;> exact absurd hp (by decide)
      have hlook : namedColorsLookup (normalizeColorString s) =
          some (.inherited (normalizeColorString s)) := by
        unfold namedColorsLookup
        rw [hfind]
        dsimp only
        rw [if_pos hp]
      rw [hlook]
  · intro l h3 h6
    rw [hexpand l]
    split
    · rename_i c0 c1 c2 heq
      refine absurd ?_ h3
      rw [heq]
      simp
    · rename_i c0 c1 c2 c3 c4 c5 heq
      refine absurd ?_ h6
      rw [heq]
      simp
    · rfl
  · intro c0 c1 c2 v0 v1 v2 h0 h1 h2
    have hrm : removeFirstChar '#' ('#' :: [c0, c1, c2]) = [c0, c1, c2] := by
      simp [removeFirstChar]
    rw [hexpand, hrm]
    dsimp only
    rw [parseInt16_digits c0 c0 v0 v0 h0 h0, parseInt16_digits c1 c1 v1 v1 h1 h1,
      parseInt16_digits c2 c2 v2 v2 h2 h2]
    unfold validateRGB
    dsimp only
    rw [if_neg (by
      have b0 := hexDigitVal_le _ _ h0
      have b1 := hexDigitVal_le _ _ h1
      have b2 := hexDigitVal_le _ _ h2
      omega)]
    have e0 : 16 * v0 + v0 = 17 * v0 := by omega
    have e1 : 16 * v1 + v1 = 17 * v1 := by omega
    have e2 : 16 * v2 + v2 = 17 * v2 := by omega
    rw [e0, e1, e2]
  · intro c0 c1 c2 c3 c4 c5 v0 v1 v2 v3 v4 v5 h0 h1 h2 h3 h4 h5
    have hrm : removeFirstChar '#' ('#' :: [c0, c1, c2, c3, c4, c5]) =
        [c0, c1, c2, c3, c4, c5] := by
      simp [removeFirstChar]
    rw [hexpand, hrm]
    dsimp only
    rw [parseInt16_digits c0 c1 v0 v1 h0 h1, parseInt16_digits c2 c3 v2 v3 h2 h3,
      parseInt16_digits c4 c5 v4 v5 h4 h5]
    unfold validateRGB
    dsimp only
    rw [if_neg (by
      have b0 := hexDigitVal_le _ _ h0
      have b1 := hexDigitVal_le _ _ h1
      have b2 := hexDigitVal_le _ _ h2
      have b3 := hexDigitVal_le _ _ h3
      have b4 := hexDigitVal_le _ _ h4
      have b5 := hexDigitVal_le _ _ h5
      omega)]

/-- Claim C6 witness: the colour-range clause applied to the concrete
parse of `"#010203"`, which succeeds with channels (1, 2, 3). -/
theorem claim_C6_witness :
    0 ≤ (RGBColor.mk 1 2 3).r ∧ (RGBColor.mk 1 2 3).r ≤ 255 ∧
    0 ≤ (RGBColor.mk 1 2 3).g ∧ (RGBColor.mk 1 2 3).g ≤ 255 ∧
    0 ≤ (RGBColor.mk 1 2 3).b ∧ (RGBColor.mk 1 2 3).b ≤ 255 :=
  claim_C6.2.2.2.1 "#010203" ⟨1, 2, 3⟩ (by decide)
